import Mathlib

/-!
# Inventory Stock Consistency & Order Lifecycle Engine — verification

A shallow embedding of the stock/lifecycle core of the `backend_icesoft`
repository (Node.js + Express + Mongoose), faithful to the controllers
`sale.controller` (src/unnamed/part_003), `purchase.controller`
(src/unnamed/part_004), the models `Product`/`Purchase`
(src/unnamed/part_000) and `Sale` (src/models/sales.js), and the helper
`utils/permissions.js` (second segment of src/models/sales.js).

Modelling conventions:
* Mongo collections are association lists `List (Nat × α)` keyed by the
  storage-internal `_id` (a `Nat` here).  `findById` is `assocFind`,
  `findByIdAndUpdate` is `assocSet` (a no-op when the id is absent, as in
  Mongo), a freshly saved document is appended with a fresh key.
* JS numbers that the code validates to be integers (`Number.isInteger`)
  are modelled as `Int`.  Stock is an `Int` because nothing in the code
  prevents it from going negative via `$inc` updates (Mongoose runs update
  validators only for `$set`/`$unset`-style operators, never for `$inc`).
* `document.save()` re-runs the schema validators; for products the
  numeric validators are `stock ≥ 0` (integer) and `price ≥ 0`, modelled
  in `saveProduct`.  Other schema validators (required strings, enums)
  hold for every state built here and are not repeated.
* The `async` function `checkPermission` is called by every controller
  WITHOUT `await` inside `if (!checkPermission(...))`.  The call therefore
  yields a `Promise` object, which is truthy in JS, so the negation is
  always `false`.  `JsValue`/`jsTruthy` model exactly this.
* The Product schema attaches a getter to `expirationDate` that returns
  `date.toISOString().split('T')[0]`, i.e. a `"YYYY-MM-DD"` string.
  Mongoose applies path getters on every property access, so in
  `validateProductsAvailability` the comparison
  `foundProduct.expirationDate <= currentDate` compares a string with a
  `Date`.  Per ECMA-262 the abstract relational comparison converts the
  string with `ToNumber`, and `ToNumber("YYYY-MM-DD")` is `NaN` (the dash
  is not part of the numeric-literal grammar), so the comparison is always
  `false`.  `isoDatePart`, `jsStringToNumber` and `jsLeStringDate` model this.
* Request dates (`salesDate`, `purchase_date`) only affect stored
  timestamps, never the stock/lifecycle facts proved here; the date-format
  validation and formatting helpers are omitted.
* HTTP responses are modelled by their status code and message.
-/

namespace Icesoft

/-! ## Association-list collections (Mongo `findById` / `findByIdAndUpdate`) -/

/-- `Model.findById(k)`: first binding for key `k`, if any. -/
def assocFind {α : Type} : List (Nat × α) → Nat → Option α
  | [], _ => none
  | p :: rest, k => if p.1 = k then some p.2 else assocFind rest k

/-- `Model.findByIdAndUpdate(k, v)`: replace the value bound to `k`;
a no-op when `k` is absent (Mongo returns `null` and updates nothing). -/
def assocSet {α : Type} : List (Nat × α) → Nat → α → List (Nat × α)
  | [], _, _ => []
  | p :: rest, k, v => (if p.1 = k then (k, v) else p) :: assocSet rest k v

/-- `Model.findByIdAndDelete(k)`. -/
def assocErase {α : Type} : List (Nat × α) → Nat → List (Nat × α)
  | [], _ => []
  | p :: rest, k => if p.1 = k then assocErase rest k else p :: assocErase rest k

/-- A key strictly larger than every key in the list: the fresh `_id`
Mongo assigns to a newly saved document. -/
def freshKey {α : Type} : List (Nat × α) → Nat
  | [] => 0
  | p :: rest => max (p.1 + 1) (freshKey rest)

/-! ## JS semantics fragments

`checkPermission` in utils/permissions.js is `async`.  Every controller
calls it as `if (!checkPermission(req.user.role, code))` — without
`await` — so the tested value is the `Promise` object itself. -/

/-- The JS values that reach the controllers' permission guard: either an
actual boolean, or the `Promise` returned by the un-awaited call of the
`async` function `checkPermission` (`resolves` is the boolean the promise
would resolve to). -/
inductive JsValue where
  | bool (b : Bool)
  | promiseVal (resolves : Bool)
deriving DecidableEq, Repr

/-- JS truthiness: `false` is falsy; every object — in particular every
`Promise` — is truthy. -/
def jsTruthy : JsValue → Bool
  | .bool b => b
  | .promiseVal _ => true

/-- The un-awaited call `checkPermission(role, code)` as seen by `if`:
a `Promise` object. -/
def unawaited (resolves : Bool) : JsValue := .promiseVal resolves

/-- `String.prototype.trim()`: strip whitespace from both ends. -/
def jsTrim (s : String) : String :=
  ⟨((s.data.dropWhile (fun c => c.isWhitespace)).reverse.dropWhile
      (fun c => c.isWhitespace)).reverse⟩

/-- The digit run of a string numeric literal: `some` of its decimal
value when the character list is a non-empty run of decimal digits,
otherwise `none` (= `NaN`). -/
def jsDigitsCore (ds : List Char) : Option Nat :=
  if ds ≠ [] ∧ ds.all (fun c => c.isDigit) then
    some (ds.foldl (fun acc c => acc * 10 + (c.toNat - 48)) 0)
  else none

/-- ECMA-262 `ToNumber` on a string, restricted to the string numeric
literals relevant here: optional sign followed by decimal digits
(`none` = `NaN`).  The `"YYYY-MM-DD"` strings produced by the
`expirationDate` getter contain interior dashes and therefore do not
match the string-numeric-literal grammar: they convert to `NaN`. -/
def jsStringToNumber (s : String) : Option Int :=
  match s.data with
  | [] => some 0
  | c :: rest =>
    if c = '-' then (jsDigitsCore rest).map (fun n => -(n : Int))
    else if c = '+' then (jsDigitsCore rest).map (fun n => (n : Int))
    else (jsDigitsCore (c :: rest)).map (fun n => (n : Int))

/-- The abstract relational comparison `s <= d` where `s` is a string and
`d` a `Date` (primitivised to its millisecond value): both sides go
through `ToNumber`; a `NaN` on either side makes the comparison `false`. -/
def jsLeStringDate (s : String) (dateMs : Int) : Bool :=
  match jsStringToNumber s with
  | none => false
  | some n => n ≤ dateMs

/-! ### `toISOString().split('T')[0]` — the Date getter

Civil-from-days conversion (proleptic Gregorian, UTC), used to model the
`expirationDate`/`batchDate` getters of the Product schema.  Only ever
evaluated at concrete post-1970 epochs in this development. -/

/-- Zero-pad a number to two digits (`String.padStart(2, "0")`). -/
def pad2 (n : Nat) : String :=
  if n < 10 then "0" ++ toString n else toString n

/-- Convert days-since-epoch to (year, month, day). -/
def civilFromDays (z0 : Int) : Int × Int × Int :=
  let z := z0 + 719468
  let era := (if 0 ≤ z then z else z - 146096) / 146097
  let doe := z - era * 146097
  let yoe := (doe - doe / 1460 + doe / 36524 - doe / 146096) / 365
  let y := yoe + era * 400
  let doy := doe - (365 * yoe + yoe / 4 - yoe / 100)
  let mp := (5 * doy + 2) / 153
  let d := doy - (153 * mp + 2) / 5 + 1
  let m := mp + (if mp < 10 then 3 else -9)
  (y + (if m ≤ 2 then 1 else 0), m, d)

/-- `date.toISOString().split('T')[0]` for a Date holding `ms`
milliseconds since the epoch: the `"YYYY-MM-DD"` string. -/
def isoDatePart (ms : Int) : String :=
  let days := ms / 86400000
  let ymd := civilFromDays days
  toString ymd.1 ++ "-" ++ pad2 ymd.2.1.toNat ++ "-" ++ pad2 ymd.2.2.toNat

/-! ## Data model (src/unnamed/part_000, src/models/sales.js)

`batchDate`, audit timestamps (`deactivated_at`, `reactivated_at`,
`completedAt`, `cancelledAt`), actor ids and the `salesDate`/
`purchase_date` fields are carried by the records in the source but never
read back by the lifecycle logic; they are omitted here. -/

/-- `status` enum of Product / Purchase / Provider / Customer / Branch. -/
inductive EntStatus where
  | active
  | inactive
deriving DecidableEq, Repr

/-- Sale `status` enum. -/
inductive SaleStatus where
  | processing
  | completed
  | cancelled
deriving DecidableEq, Repr

/-- The string value stored in the Sale's `status` path. -/
def SaleStatus.str : SaleStatus → String
  | .processing => "processing"
  | .completed => "completed"
  | .cancelled => "cancelled"

/-- Product document.  `expirationDate` holds the raw stored Date in
epoch milliseconds (`none` when absent in a legacy document); reading the
path through the document applies the schema getter, see
`productExpirationGet`. -/
structure Product where
  name : String
  price : Int
  expirationDate : Option Int
  stock : Int
  status : EntStatus
deriving DecidableEq, Repr

/-- Accessing `product.expirationDate` on a mongoose document applies the
schema getter `date => date.toISOString().split('T')[0]`, yielding a
`"YYYY-MM-DD"` string (or `null`). -/
def productExpirationGet (p : Product) : Option String :=
  p.expirationDate.map isoDatePart

/-- The guard `foundProduct.expirationDate && foundProduct.expirationDate
<= currentDate` of `validateProductsAvailability`: a `null` date is falsy
and short-circuits; otherwise the getter's string is compared with the
current `Date`. -/
def productExpired (p : Product) (nowMs : Int) : Bool :=
  match productExpirationGet p with
  | none => false
  | some s => jsLeStringDate s nowMs

/-- Sale line item. -/
structure SaleItem where
  product : Nat
  quantity : Int
  sale_price : Int
  total : Int
deriving DecidableEq, Repr

structure Sale where
  id : String
  customer : Nat
  branch : Nat
  products : List SaleItem
  total : Int
  status : SaleStatus
deriving DecidableEq, Repr

/-- Purchase line item. -/
structure PurchaseItem where
  product : Nat
  quantity : Int
  purchase_price : Int
  total : Int
deriving DecidableEq, Repr

structure Purchase where
  id : String
  provider : Nat
  products : List PurchaseItem
  total : Int
  status : EntStatus
  deactivation_reason : Option String
  reactivation_reason : Option String
deriving DecidableEq, Repr

structure Customer where
  status : EntStatus
deriving DecidableEq, Repr

structure Branch where
  status : EntStatus
deriving DecidableEq, Repr

structure Provider where
  status : EntStatus
deriving DecidableEq, Repr

/-- The persistent store. -/
structure DB where
  products : List (Nat × Product)
  customers : List (Nat × Customer)
  branches : List (Nat × Branch)
  providers : List (Nat × Provider)
  sales : List (Nat × Sale)
  purchases : List (Nat × Purchase)
deriving DecidableEq, Repr

/-- An HTTP response: status code and message. -/
structure Resp where
  status : Nat
  message : String
deriving DecidableEq, Repr

/-- Result of a controller call: the response sent and the store as left
behind (mid-loop failures leave already-applied mutations in place). -/
structure OpResult where
  resp : Resp
  db : DB
deriving DecidableEq, Repr

/-! ## Stock ledger (Product model methods and `$inc` updates) -/

/-- `product.save()`: re-runs the numeric schema validators on the
document (`stock` a non-negative integer, `price` non-negative).
Integrality is intrinsic to the `Int` model. -/
def saveProduct (p : Product) : Except String Product :=
  if p.stock < 0 ∨ p.price < 0 then .error "Product validation failed" else .ok p

/-- `ProductSchema.methods.incrementStock`. -/
def incrementStock (p : Product) (quantity : Int) : Except String Product :=
  saveProduct { p with stock := p.stock + quantity }

/-- `ProductSchema.methods.decrementStock`: throws `'Insufficient stock'`
when `stock < quantity`, otherwise subtracts and saves. -/
def decrementStock (p : Product) (quantity : Int) : Except String Product :=
  if p.stock < quantity then .error "Insufficient stock"
  else saveProduct { p with stock := p.stock - quantity }

/-- `Product.findByIdAndUpdate(id, { $inc: { stock: delta } },
{ runValidators: true })`.  Mongoose runs update validators only for
`$set`/`$unset`-style operators — never for `$inc` — so no validation
happens here and the stock may become negative.  A missing id is a
no-op. -/
def incStockUnchecked (ps : List (Nat × Product)) (pid : Nat) (delta : Int) :
    List (Nat × Product) :=
  match assocFind ps pid with
  | none => ps
  | some p => assocSet ps pid { p with stock := p.stock + delta }

/-! ## Authorization collaborator (utils/permissions.js) -/

/-- A Role document with its `permissions` array populated; a populated
permission is identified by its `code`. -/
structure Role where
  name : String
  isDefault : Bool
  permissions : List String
deriving DecidableEq, Repr

def ALL_PERMISSIONS : List String :=
  ["view_roles", "view_roles_id", "create_roles", "update_roles", "delete_roles",
   "update_role_status",
   "create_users", "view_users", "view_users_id", "update_users", "delete_users",
   "update_user_status",
   "view_categories", "view_categories_id", "create_categories", "update_categories",
   "delete_categories", "update_status_categories",
   "view_providers", "view_providers_id", "create_providers", "update_providers",
   "delete_providers", "update_status_providers",
   "view_products", "view_products_id", "create_products", "edit_products",
   "delete_products", "update_status_products", "update_stock_products",
   "view_purchases", "view_purchases_id", "create_purchases", "delete_purchases",
   "update_status_purchases", "reactivate_purchases",
   "view_branches", "create_branches", "update_branches", "delete_branches",
   "update_status_branches", "edit_branches",
   "view_customers", "view_customers_id", "create_customers", "update_customers",
   "delete_customers", "update_customers_status",
   "view_sales", "view_sales_id", "create_sales", "delete_sales", "update_status_sales",
   "view_permissions", "view_permissions_id", "create_permissions", "update_permissions",
   "delete_permissions", "update_permission_status"]

/-- `DEFAULT_PERMISSIONS[name]` (`none` when the name is not one of the
three predefined roles). -/
def defaultPermissionsOf : String → Option (List String)
  | "admin" => some ALL_PERMISSIONS
  | "assistant" => some
      ["view_roles", "view_users", "view_users_id",
       "view_categories", "view_categories_id", "create_categories",
       "update_status_categories",
       "view_providers", "view_providers_id", "create_providers", "update_providers",
       "update_status_providers",
       "view_products", "view_products_id", "create_products", "edit_products",
       "delete_products", "update_status_products", "update_stock_products",
       "view_purchases", "view_purchases_id", "create_purchases",
       "update_status_purchases",
       "view_customers", "view_customers_id", "create_customers", "update_customers",
       "view_sales", "view_sales_id", "create_sales"]
  | "employee" => some
      ["view_categories",
       "view_products", "view_products_id", "create_products", "edit_products",
       "delete_products", "update_status_products", "update_stock_products",
       "view_customers", "view_customers_id",
       "view_sales", "view_sales_id", "create_sales"]
  | _ => none

/-- The value the `async` `checkPermission(roleId, permissionCode)` would
RESOLVE to: look the role up; for a predefined default role consult the
static table, otherwise the populated permissions array (and `false` when
that array is empty). -/
def checkPermission (roles : List (Nat × Role)) (roleId : Nat) (code : String) : Bool :=
  match assocFind roles roleId with
  | none => false
  | some role =>
    match (if role.isDefault then defaultPermissionsOf role.name else none) with
    | some perms => perms.contains code
    | none =>
      if role.permissions.length > 0 then role.permissions.contains code else false

/-! ## Identifier Allocator (generateSaleId / generatePurchaseId)

The Sale and Purchase controllers contain two textually identical
allocators differing only in the two-letter prefix; they are modelled by
one parameterised function. -/

/-- Decimal value of a digit string (the `parseInt(id.substring(2), 10)`
step, applied after the shape test guarantees digits). -/
def digitsVal (cs : List Char) : Nat :=
  cs.foldl (fun a c => a * 10 + (c.toNat - 48)) 0

/-- The test `/^Xy\d{2}$/` for the given two-letter prefix. -/
def idShape (pre s : String) : Bool :=
  s.length == 4 && s.take 2 == pre && (s.drop 2).data.all (·.isDigit)

/-- `Date.now().toString().slice(-4)`. -/
def last4 (nowMs : Nat) : String :=
  let s := toString nowMs
  s.drop (s.length - 4)

/-- Lexicographic comparison on code points (how BSON orders the string
`id` field). -/
def charListLt : List Char → List Char → Bool
  | [], [] => false
  | [], _ :: _ => true
  | _ :: _, [] => false
  | a :: as, b :: bs =>
    if a.toNat < b.toNat then true
    else if b.toNat < a.toNat then false
    else charListLt as bs

def strLt (a b : String) : Bool := charListLt a.data b.data

/-- `Model.findOne().sort({ id: -1 })`: the lexicographically greatest
existing display id. -/
def maxId (ids : List String) : Option String :=
  ids.foldl
    (fun acc s =>
      match acc with
      | none => some s
      | some m => some (if strLt m s then s else m))
    none

/-- The bounded collision-avoidance loop: try `pre ++ pad2 n`,
`pre ++ pad2 (n+1)`, … while an id exists, giving up after `fuel`
attempts (`maxAttempts = 100` in the main path, 99 in the linear scan). -/
def scanFrom (pre : String) (ids : List String) : Nat → Nat → Option String
  | _, 0 => none
  | n, fuel + 1 =>
    let candidateId := pre ++ pad2 n
    if ids.contains candidateId then scanFrom pre ids (n + 1) fuel
    else some candidateId

/-- `findNextAvailableSaleId` / `findNextAvailableId`: linear scan of
slots 01..99, then the timestamp fallback. -/
def findNextAvailable (pre : String) (ids : List String) (nowMs : Nat) : String :=
  match scanFrom pre ids 1 99 with
  | some c => c
  | none => pre ++ last4 nowMs

/-- `generateSaleId` (`pre = "Sa"`) and `generatePurchaseId`
(`pre = "Pu"`).  Lookup errors (the catch-all emergency path) cannot
occur in this store model. -/
def generateSeqId (pre : String) (ids : List String) (nowMs : Nat) : String :=
  let notSequential := fun (_ : Unit) =>
    if ids.contains (pre ++ "01") then findNextAvailable pre ids nowMs
    else pre ++ "01"
  match maxId ids with
  | none => notSequential ()
  | some last =>
    if idShape pre last then
      let lastNumber := digitsVal (last.drop 2).data
      match scanFrom pre ids (lastNumber + 1) 100 with
      | some c => c
      | none => pre ++ last4 nowMs
    else notSequential ()

def generateSaleId (ids : List String) (nowMs : Nat) : String :=
  generateSeqId "Sa" ids nowMs

def generatePurchaseId (ids : List String) (nowMs : Nat) : String :=
  generateSeqId "Pu" ids nowMs

/-! ## Sale controller (src/unnamed/part_003)

The request's `customer`/`branch`/`product` ids are `Nat` keys in this
model, so the `mongoose.Types.ObjectId.isValid` format checks always
pass; the `salesDate` format check and stored date are omitted (see the
header).  `hasPerm` is the boolean the un-awaited `checkPermission` call
would resolve to. -/

/-- One entry of the request body's `products` array for a sale. -/
structure SaleReqItem where
  product : Nat
  quantity : Int
deriving DecidableEq, Repr

/-- The per-item part of `validateSaleData` (quantity must be a positive
integer; integrality is intrinsic here). -/
def validateQuantities : List SaleReqItem → Nat → List String
  | [], _ => []
  | it :: rest, i =>
    (if it.quantity ≤ 0 then
      ["Invalid quantity at index " ++ toString i ++ ". Must be a positive integer"]
     else []) ++ validateQuantities rest (i + 1)

/-- `validateSaleData` on a creation request. -/
def validateSaleData (products : List SaleReqItem) : List String :=
  (if products.isEmpty then ["At least one product is required"] else []) ++
    validateQuantities products 0

/-- `validateProductsAvailability`: checks each line in order (found,
active, sufficient stock, not expired), snapshots the catalog price into
the line item and accumulates the total.  The expiration test reads
`foundProduct.expirationDate` through the schema getter (a string) and
compares it with `currentDate` (a Date) — see `jsLeStringDate`. -/
def validateProductsAvailability (ps : List (Nat × Product)) (nowMs : Int) :
    List SaleReqItem → Nat → Except String (List SaleItem × Int)
  | [], _ => .ok ([], 0)
  | it :: rest, i =>
    match assocFind ps it.product with
    | none => .error ("Product not found at index " ++ toString i)
    | some p =>
      if p.status ≠ EntStatus.active then
        .error ("Cannot sell inactive product \"" ++ p.name ++ "\" at index " ++ toString i)
      else if p.stock < it.quantity then
        .error ("Insufficient stock for product \"" ++ p.name ++ "\". Available: " ++
          toString p.stock ++ ", Requested: " ++ toString it.quantity)
      else if productExpired p nowMs then
          .error ("Product \"" ++ p.name ++ "\" has expired and cannot be sold")
        else
          let salePrice := p.price
          let itemTotal := salePrice * it.quantity
          match validateProductsAvailability ps nowMs rest (i + 1) with
          | .error e => .error e
          | .ok (items, total) =>
            .ok (⟨it.product, it.quantity, salePrice, itemTotal⟩ :: items, itemTotal + total)

/-- The reservation loop of `postSale`: per line,
`Product.findByIdAndUpdate(item.product, { $inc: { stock: -qty } })`. -/
def reserveLoop (ps : List (Nat × Product)) : List SaleItem → List (Nat × Product)
  | [] => ps
  | it :: rest => reserveLoop (incStockUnchecked ps it.product (-it.quantity)) rest

/-- `SaleSchema.pre('save')`: recompute `total` as the sum of the line
totals. -/
def presaveSale (s : Sale) : Sale :=
  { s with total := (s.products.map (fun it => it.total)).sum }

/-- `newSale.save()` validation: each quantity a positive integer, each
`sale_price` a non-negative integer, `total` a non-negative integer. -/
def saleValid (s : Sale) : Bool :=
  s.products.all (fun it => 0 < it.quantity && 0 ≤ it.sale_price) && 0 ≤ s.total

/-- `postSale`.  On success: stock reserved per line, display id
allocated, sale persisted in `processing`, HTTP 201.  A validation throw
from `validateProductsAvailability` is caught and reported as 400; the
unique index on `id` turns a duplicate display id into the 409 branch
(with the reservations already applied, as in the source). -/
def postSale (db : DB) (nowMs : Nat) (hasPerm : Bool)
    (products : List SaleReqItem) (customer branch : Nat) : OpResult :=
  if !(jsTruthy (unawaited hasPerm)) then ⟨⟨403, "Unauthorized access"⟩, db⟩
  else if validateSaleData products ≠ [] then ⟨⟨400, "Validation error"⟩, db⟩
  else
    match assocFind db.customers customer with
    | none => ⟨⟨404, "Customer not found"⟩, db⟩
    | some cust =>
      if cust.status ≠ EntStatus.active then
        ⟨⟨400, "Cannot create sale for inactive customer"⟩, db⟩
      else
        match assocFind db.branches branch with
        | none => ⟨⟨404, "Branch not found"⟩, db⟩
        | some br =>
          if br.status ≠ EntStatus.active then
            ⟨⟨400, "Cannot create sale for inactive branch"⟩, db⟩
          else
            match validateProductsAvailability db.products (nowMs : Int) products 0 with
            | .error msg => ⟨⟨400, msg⟩, db⟩
            | .ok (validatedProducts, total) =>
              let ps' := reserveLoop db.products validatedProducts
              let saleId := generateSaleId (db.sales.map (fun s => s.2.id)) nowMs
              let newSale := presaveSale
                ⟨saleId, customer, branch, validatedProducts, total, .processing⟩
              if (db.sales.map (fun s => s.2.id)).contains saleId then
                ⟨⟨409, "Sale ID conflict, please try again"⟩, { db with products := ps' }⟩
              else if !(saleValid newSale) then
                ⟨⟨500, "Server error"⟩, { db with products := ps' }⟩
              else
                ⟨⟨201, "Sale created successfully and stock has been reserved for processing."⟩,
                 { db with
                    products := ps'
                    sales := db.sales ++ [(freshKey db.sales, newSale)] }⟩

/-- `allowedTransitions` table of `updateSaleStatus`. -/
def allowedTransitions : SaleStatus → List String
  | .processing => ["completed", "cancelled"]
  | .completed => []
  | .cancelled => []

/-- Parse the (already range-checked) target status string. -/
def saleStatusOf (s : String) : SaleStatus :=
  if s = "completed" then .completed
  else if s = "cancelled" then .cancelled
  else .processing

/-- The restore loop of the `processing → cancelled` branch: per line,
`findById` (404 if the product no longer exists — returning with the
previous lines already restored) then `$inc` by the reserved quantity. -/
def restoreLoop (ps : List (Nat × Product)) :
    List SaleItem → Except (List (Nat × Product)) (List (Nat × Product))
  | [] => .ok ps
  | it :: rest =>
    match assocFind ps it.product with
    | none => .error ps
    | some _ => restoreLoop (incStockUnchecked ps it.product it.quantity) rest

/-- `updateSaleStatus`. -/
def updateSaleStatus (db : DB) (hasPerm : Bool) (id : Nat) (status : String) : OpResult :=
  if !(jsTruthy (unawaited hasPerm)) then ⟨⟨403, "Unauthorized access"⟩, db⟩
  else if !(["processing", "completed", "cancelled"].contains status) then
    ⟨⟨400, "Status must be one of: processing, completed, or cancelled"⟩, db⟩
  else
    match assocFind db.sales id with
    | none => ⟨⟨404, "Sale not found"⟩, db⟩
    | some currentSale =>
      if currentSale.status = SaleStatus.completed then
        ⟨⟨400, "Cannot change status of a completed sale."⟩, db⟩
      else if currentSale.status = SaleStatus.cancelled then
        ⟨⟨400, "Cannot change status of a cancelled sale."⟩, db⟩
      else if currentSale.status.str = status then
        ⟨⟨400, "Sale is already in " ++ status ++ " status"⟩, db⟩
      else if !((allowedTransitions currentSale.status).contains status) then
        ⟨⟨400, "Cannot change status from " ++ currentSale.status.str ++ " to " ++ status⟩, db⟩
      else
        let afterStock :
            Except (List (Nat × Product)) (List (Nat × Product)) :=
          if currentSale.status = SaleStatus.processing ∧ status = "cancelled" then
            restoreLoop db.products currentSale.products
          else .ok db.products
        match afterStock with
        | .error ps' => ⟨⟨404, "Product not found in sale"⟩, { db with products := ps' }⟩
        | .ok ps' =>
          let updated := { currentSale with status := saleStatusOf status }
          ⟨⟨200,
            if status = "completed" then
              "Sale completed successfully - stock consumed permanently"
            else "Sale cancelled - reserved stock has been restored"⟩,
           { db with products := ps', sales := assocSet db.sales id updated }⟩

/-- The restore loop of `deleteSale` (no per-line existence check:
a missing product's `$inc` is simply a no-op). -/
def restoreStockLoop (ps : List (Nat × Product)) : List SaleItem → List (Nat × Product)
  | [] => ps
  | it :: rest => restoreStockLoop (incStockUnchecked ps it.product it.quantity) rest

/-- `deleteSale`: only `processing` or `cancelled` sales can be deleted;
deleting a `processing` sale first restores its reserved stock. -/
def deleteSale (db : DB) (hasPerm : Bool) (id : Nat) : OpResult :=
  if !(jsTruthy (unawaited hasPerm)) then ⟨⟨403, "Unauthorized access"⟩, db⟩
  else
    match assocFind db.sales id with
    | none => ⟨⟨404, "Sale not found"⟩, db⟩
    | some saleToDelete =>
      if !(["processing", "cancelled"].contains saleToDelete.status.str) then
        ⟨⟨400, "Cannot delete sale that is completed. Only processing or cancelled sales can be deleted."⟩,
         db⟩
      else
        let ps' :=
          if saleToDelete.status = SaleStatus.processing then
            restoreStockLoop db.products saleToDelete.products
          else db.products
        ⟨⟨200, "Sale deleted successfully" ++
            (if saleToDelete.status = SaleStatus.processing then
              " and reserved stock restored" else "")⟩,
         { db with products := ps', sales := assocErase db.sales id }⟩

/-! ## Purchase controller (src/unnamed/part_004) -/

/-- One entry of the request body's `products` array for a purchase
(the purchase price is caller input here, unlike sales). -/
structure PurchaseReqItem where
  product : Nat
  quantity : Int
  purchase_price : Int
deriving DecidableEq, Repr

/-- The per-item part of `validatePurchaseData`. -/
def validatePurchaseItems : List PurchaseReqItem → Nat → List String
  | [], _ => []
  | it :: rest, i =>
    (if it.quantity ≤ 0 then
      ["Invalid quantity at index " ++ toString i ++ ". Must be a positive integer"]
     else []) ++
    (if it.purchase_price ≤ 0 then
      ["Invalid purchase price at index " ++ toString i ++ ". Must be a positive number"]
     else []) ++
    validatePurchaseItems rest (i + 1)

/-- `validatePurchaseData` on a creation request. -/
def validatePurchaseData (products : List PurchaseReqItem) : List String :=
  (if products.isEmpty then ["At least one product is required"] else []) ++
    validatePurchaseItems products 0

/-- The body of `postPurchase`'s single loop over the request lines:
per line `findById` (404 if missing), active check (400), push the
validated line, then `foundProduct.incrementStock(quantity)` — the
existence check and the stock mutation are interleaved, so an error at
index `i` leaves the first `i` increments applied.  The `Except` error
carries the response together with the store as mutated so far. -/
def purchaseItemsLoop (ps : List (Nat × Product)) (i : Nat)
    (acc : List PurchaseItem) (total : Int) :
    List PurchaseReqItem →
    Except (Resp × List (Nat × Product)) (List PurchaseItem × Int × List (Nat × Product))
  | [] => .ok (acc, total, ps)
  | it :: rest =>
    match assocFind ps it.product with
    | none => .error (⟨404, "Product not found at index " ++ toString i⟩, ps)
    | some foundProduct =>
      if foundProduct.status ≠ EntStatus.active then
        .error (⟨400, "Cannot use inactive product at index " ++ toString i⟩, ps)
      else
        let itemTotal := it.purchase_price * it.quantity
        match incrementStock foundProduct it.quantity with
        | .error _ => .error (⟨500, "Server error"⟩, ps)
        | .ok p' =>
          purchaseItemsLoop (assocSet ps it.product p') (i + 1)
            (acc ++ [⟨it.product, it.quantity, it.purchase_price, itemTotal⟩])
            (total + itemTotal) rest

/-- `newPurchase.save()` validation: quantities positive integers,
purchase prices positive. -/
def purchaseValid (p : Purchase) : Bool :=
  p.products.all (fun it => 0 < it.quantity && 0 < it.purchase_price)

/-- `postPurchase`. -/
def postPurchase (db : DB) (nowMs : Nat) (hasPerm : Bool)
    (products : List PurchaseReqItem) (provider : Nat) : OpResult :=
  if !(jsTruthy (unawaited hasPerm)) then ⟨⟨403, "Unauthorized access"⟩, db⟩
  else if validatePurchaseData products ≠ [] then ⟨⟨400, "Validation error"⟩, db⟩
  else
    match assocFind db.providers provider with
    | none => ⟨⟨404, "Provider not found"⟩, db⟩
    | some existingProvider =>
      if existingProvider.status ≠ EntStatus.active then
        ⟨⟨400, "Cannot use inactive provider"⟩, db⟩
      else
        match purchaseItemsLoop db.products 0 [] 0 products with
        | .error (r, ps') => ⟨r, { db with products := ps' }⟩
        | .ok (validatedProducts, total, ps') =>
          let purchaseId := generatePurchaseId (db.purchases.map (fun p => p.2.id)) nowMs
          let newPurchase : Purchase :=
            ⟨purchaseId, provider, validatedProducts, total, .active, none, none⟩
          if (db.purchases.map (fun p => p.2.id)).contains purchaseId then
            ⟨⟨409, "Purchase ID conflict, please try again"⟩, { db with products := ps' }⟩
          else if !(purchaseValid newPurchase) then
            ⟨⟨500, "Server error"⟩, { db with products := ps' }⟩
          else
            ⟨⟨201, "Purchase created successfully and product stock updated"⟩,
             { db with
                products := ps'
                purchases := db.purchases ++ [(freshKey db.purchases, newPurchase)] }⟩

/-- The pre-check loop of `deactivatePurchase`: scan the lines in order;
a line whose product exists but lacks the stock to reverse the purchase
aborts with 400 (before any mutation); a line whose product no longer
exists is silently skipped (`if (product)`). -/
def deactivateCheck (ps : List (Nat × Product)) : List PurchaseItem → Option Resp
  | [] => none
  | it :: rest =>
    match assocFind ps it.product with
    | none => deactivateCheck ps rest
    | some product =>
      if product.stock < it.quantity then
        some ⟨400, "Cannot deactivate purchase. Product '" ++ product.name ++
          "' doesn't have sufficient stock to reverse the purchase"⟩
      else deactivateCheck ps rest

/-- The decrement loop of `deactivatePurchase`: per line `findById`,
skip a missing product, otherwise `product.decrementStock(qty)` — whose
throw surfaces as a 500 with the earlier decrements already applied. -/
def deactivateDec (ps : List (Nat × Product)) :
    List PurchaseItem →
    Except (Resp × List (Nat × Product)) (List (Nat × Product))
  | [] => .ok ps
  | it :: rest =>
    match assocFind ps it.product with
    | none => deactivateDec ps rest
    | some product =>
      match decrementStock product it.quantity with
      | .error _ => .error (⟨500, "Server error"⟩, ps)
      | .ok p' => deactivateDec (assocSet ps it.product p') rest

/-- `deactivatePurchase` (requires a non-empty reason). -/
def deactivatePurchase (db : DB) (hasPerm : Bool) (id : Nat) (reason : String) : OpResult :=
  if !(jsTruthy (unawaited hasPerm)) then ⟨⟨403, "Unauthorized access"⟩, db⟩
  else if jsTrim reason = "" then ⟨⟨400, "Deactivation reason is required"⟩, db⟩
  else
    match assocFind db.purchases id with
    | none => ⟨⟨404, "Purchase not found"⟩, db⟩
    | some purchase =>
      if purchase.status ≠ EntStatus.active then
        ⟨⟨400, "Purchase is already inactive"⟩, db⟩
      else
        match deactivateCheck db.products purchase.products with
        | some r => ⟨r, db⟩
        | none =>
          match deactivateDec db.products purchase.products with
          | .error (r, ps') => ⟨r, { db with products := ps' }⟩
          | .ok ps' =>
            let updated :=
              { purchase with
                  status := EntStatus.inactive
                  deactivation_reason := some (jsTrim reason) }
            ⟨⟨200, "Purchase deactivated successfully and stock reverted"⟩,
             { db with products := ps', purchases := assocSet db.purchases id updated }⟩

/-- The product pre-check loop of `reactivatePurchase`: every referenced
product must exist and be active. -/
def reactivateCheck (ps : List (Nat × Product)) : List PurchaseItem → Option Resp
  | [] => none
  | it :: rest =>
    match assocFind ps it.product with
    | none => some ⟨400, "Cannot reactivate purchase. Product is inactive or not found"⟩
    | some product =>
      if product.status ≠ EntStatus.active then
        some ⟨400, "Cannot reactivate purchase. Product is inactive or not found"⟩
      else reactivateCheck ps rest

/-- The increment loop of `reactivatePurchase`: per line `findById`,
skip a missing product (`if (product)`), otherwise
`product.incrementStock(qty)`. -/
def reactivateInc (ps : List (Nat × Product)) :
    List PurchaseItem →
    Except (Resp × List (Nat × Product)) (List (Nat × Product))
  | [] => .ok ps
  | it :: rest =>
    match assocFind ps it.product with
    | none => reactivateInc ps rest
    | some product =>
      match incrementStock product it.quantity with
      | .error _ => .error (⟨500, "Server error"⟩, ps)
      | .ok p' => reactivateInc (assocSet ps it.product p') rest

/-- `reactivatePurchase` (requires a non-empty reason; provider and all
referenced products must be active). -/
def reactivatePurchase (db : DB) (hasPerm : Bool) (id : Nat) (reason : String) : OpResult :=
  if !(jsTruthy (unawaited hasPerm)) then ⟨⟨403, "Unauthorized access"⟩, db⟩
  else if jsTrim reason = "" then ⟨⟨400, "Reactivation reason is required"⟩, db⟩
  else
    match assocFind db.purchases id with
    | none => ⟨⟨404, "Purchase not found"⟩, db⟩
    | some purchase =>
      if purchase.status ≠ EntStatus.inactive then
        ⟨⟨400, "Purchase is already active"⟩, db⟩
      else
        let providerOk :=
          match assocFind db.providers purchase.provider with
          | none => false
          | some provider => provider.status = EntStatus.active
        if !providerOk then
          ⟨⟨400, "Cannot reactivate purchase. Provider is inactive or not found"⟩, db⟩
        else
          match reactivateCheck db.products purchase.products with
          | some r => ⟨r, db⟩
          | none =>
            match reactivateInc db.products purchase.products with
            | .error (r, ps') => ⟨r, { db with products := ps' }⟩
            | .ok ps' =>
              let updated :=
                { purchase with
                    status := EntStatus.active
                    reactivation_reason := some (jsTrim reason) }
              ⟨⟨200, "Purchase reactivated successfully and stock restored"⟩,
               { db with products := ps', purchases := assocSet db.purchases id updated }⟩

/-- `deletePurchase`: only inactive purchases can be deleted; no stock
effect. -/
def deletePurchase (db : DB) (hasPerm : Bool) (id : Nat) : OpResult :=
  if !(jsTruthy (unawaited hasPerm)) then ⟨⟨403, "Unauthorized access"⟩, db⟩
  else
    match assocFind db.purchases id with
    | none => ⟨⟨404, "Purchase not found"⟩, db⟩
    | some purchaseToDelete =>
      if purchaseToDelete.status = EntStatus.active then
        ⟨⟨400, "Cannot delete an active purchase. Please deactivate it first."⟩, db⟩
      else
        ⟨⟨200, "Purchase deleted successfully"⟩,
         { db with purchases := assocErase db.purchases id }⟩

/-! ## Derived notions used to state properties -/

/-- The stock recorded for product `pid` (`none` when absent). -/
def stockOf (db : DB) (pid : Nat) : Option Int :=
  (assocFind db.products pid).map (fun p => p.stock)

/-- Total requested quantity for product `q` across a purchase request's
lines (a product may appear in several lines). -/
def sumQtyReq : List PurchaseReqItem → Nat → Int
  | [], _ => 0
  | it :: rest, q => (if it.product = q then it.quantity else 0) + sumQtyReq rest q

/-- Total quantity for product `q` across a stored purchase's lines. -/
def sumQtyP : List PurchaseItem → Nat → Int
  | [], _ => 0
  | it :: rest, q => (if it.product = q then it.quantity else 0) + sumQtyP rest q

/-- The stored line item built from a request line by `postPurchase`. -/
def toPurchaseItem (it : PurchaseReqItem) : PurchaseItem :=
  ⟨it.product, it.quantity, it.purchase_price, it.purchase_price * it.quantity⟩

/-- The grand total `postPurchase` accumulates over the request lines. -/
def itemsTotal : List PurchaseReqItem → Int
  | [] => 0
  | it :: rest => it.purchase_price * it.quantity + itemsTotal rest

/-- Effect of the prefix of `postPurchase`'s loop that ran before a
failure: the increments of the lines already processed (used to state the
amended C5). -/
def purchaseIncApplied (ps : List (Nat × Product)) :
    List PurchaseReqItem → List (Nat × Product)
  | [] => ps
  | it :: rest =>
    match assocFind ps it.product with
    | none => purchaseIncApplied ps rest
    | some p =>
      purchaseIncApplied (assocSet ps it.product { p with stock := p.stock + it.quantity }) rest

/-! ## Concrete instances (used by the closed theorems and witnesses)

`tNowMs` is 2025-10-12T00:00:00Z in epoch milliseconds; `tYesterdayMs`
is one day earlier. -/

def tNowMs : Nat := 1760227200000

def tYesterdayMs : Int := 1760140800000

/-- C1 scenario: one product with stock 5, active customer 7, branch 8. -/
def dbDupSale : DB :=
  ⟨[(1, ⟨"Widget", 100, some 1768867200000, 5, .active⟩)],
   [(7, ⟨.active⟩)], [(8, ⟨.active⟩)], [], [], []⟩

/-- C6 scenario: the product's `expirationDate` is yesterday. -/
def dbExpiredSale : DB :=
  ⟨[(1, ⟨"OldCheese", 100, some tYesterdayMs, 10, .active⟩)],
   [(7, ⟨.active⟩)], [(8, ⟨.active⟩)], [], [], []⟩

/-- C2 witness scenario: product 1 at price 100, stock 5. -/
def dbSingleSale : DB :=
  ⟨[(1, ⟨"Widget", 100, some 1768867200000, 5, .active⟩)],
   [(7, ⟨.active⟩)], [(8, ⟨.active⟩)], [], [], []⟩

/-- C3 witness scenario: an active purchase whose second line exceeds the
product's current stock. -/
def dbDeactInsufficient : DB :=
  ⟨[(1, ⟨"A", 60, none, 9, .active⟩), (2, ⟨"B", 7, none, 2, .active⟩)],
   [], [], [(9, ⟨.active⟩)], [],
   [(4, ⟨"Pu01", 9, [⟨1, 1, 50, 50⟩, ⟨2, 5, 20, 100⟩], 150, .active, none, none⟩)]⟩

/-- The purchase stored in `dbDeactInsufficient`. -/
def insufficientPurchase : Purchase :=
  ⟨"Pu01", 9, [⟨1, 1, 50, 50⟩, ⟨2, 5, 20, 100⟩], 150, .active, none, none⟩

/-- C4 witness scenario: a completed sale. -/
def dbTerminalSale : DB :=
  ⟨[(1, ⟨"Widget", 100, none, 5, .active⟩)], [], [], [],
   [(5, ⟨"Sa01", 7, 8, [⟨1, 1, 100, 100⟩], 100, .completed⟩)], []⟩

/-- The completed sale stored in `dbTerminalSale`. -/
def terminalSale : Sale := ⟨"Sa01", 7, 8, [⟨1, 1, 100, 100⟩], 100, .completed⟩

/-- C5 counterexample scenario: product 1 exists (stock 10), product 2
does not exist. -/
def dbMissingPurchase : DB :=
  ⟨[(1, ⟨"A", 100, none, 10, .active⟩)], [], [], [(9, ⟨.active⟩)], [], []⟩

/-- C5 witness scenario for the amended statement: product 3 exists,
product 99 does not; the store also holds a processing sale whose second
line references the vanished product 99. -/
def dbMissingPurchaseW : DB :=
  ⟨[(3, ⟨"C", 80, none, 4, .active⟩)], [], [], [(9, ⟨.active⟩)],
   [(6, ⟨"Sa01", 7, 8, [⟨3, 2, 80, 160⟩, ⟨99, 1, 80, 80⟩], 240, .processing⟩)], []⟩

/-- C7 scenario: a default `employee` role (role id 3). -/
def rolesEmployee : List (Nat × Role) := [(3, ⟨"employee", true, []⟩)]

/-- C7 scenario: an active purchase that a permission-less caller can
still deactivate. -/
def dbPermBypass : DB :=
  ⟨[(2, ⟨"B", 7, none, 6, .active⟩)], [], [], [(9, ⟨.active⟩)], [],
   [(4, ⟨"Pu01", 9, [⟨2, 5, 20, 100⟩], 100, .active, none, none⟩)]⟩

/-- C8 witness scenario: two products, one listed twice in the request. -/
def dbRoundTrip : DB :=
  ⟨[(1, ⟨"A", 100, none, 2, .active⟩), (2, ⟨"B", 7, none, 0, .active⟩)],
   [], [], [(9, ⟨.active⟩)], [], []⟩

/-- C10 counterexample scenario: a purchase with a vanished product at
line 0 and an existing product with insufficient stock at line 1. -/
def dbSkipMissingFail : DB :=
  ⟨[(2, ⟨"B", 7, none, 2, .active⟩)], [], [], [(9, ⟨.active⟩)], [],
   [(4, ⟨"Pu01", 9, [⟨1, 1, 50, 50⟩, ⟨2, 5, 20, 100⟩], 150, .active, none, none⟩)]⟩

/-- C10 witness scenario: as above but with stock 6, enough to reverse. -/
def dbSkipMissingOk : DB :=
  ⟨[(2, ⟨"B", 7, none, 6, .active⟩)], [], [], [(9, ⟨.active⟩)], [],
   [(4, ⟨"Pu01", 9, [⟨1, 1, 50, 50⟩, ⟨2, 5, 20, 100⟩], 150, .active, none, none⟩)]⟩

/-- The purchase stored in `dbSkipMissingOk`. -/
def skipMissingPurchase : Purchase :=
  ⟨"Pu01", 9, [⟨1, 1, 50, 50⟩, ⟨2, 5, 20, 100⟩], 150, .active, none, none⟩

/-! # Theorems -/

/-! ## Association-list and store lemmas -/

theorem assocFind_assocSet_self {α : Type} (l : List (Nat × α)) (k : Nat) (v : α) :
    assocFind (assocSet l k v) k = if (assocFind l k).isSome then some v else none := by
  induction l with
  | nil => simp [assocFind, assocSet]
  | cons hd tl ih =>
    by_cases h : hd.1 = k
    · simp [assocFind, assocSet, h]
    · simp [assocFind, assocSet, h, ih]

theorem assocFind_assocSet_ne {α : Type} (l : List (Nat × α)) (k k' : Nat) (v : α)
    (h : k' ≠ k) : assocFind (assocSet l k v) k' = assocFind l k' := by
  induction l with
  | nil => simp [assocFind, assocSet]
  | cons hd tl ih =>
    by_cases hh : hd.1 = k
    · have hkk' : ¬ (k = k') := Ne.symm h
      have hhd : ¬ (hd.1 = k') := by rw [hh]; exact hkk'
      simp only [assocSet, if_pos hh, assocFind, hkk', if_false, hhd, ih]
    · simp only [assocSet, if_neg hh, assocFind, ih]

theorem assocFind_append_right {α : Type} (l : List (Nat × α)) (k : Nat) (v : α)
    (h : assocFind l k = none) :
    assocFind (l ++ [(k, v)]) k = some v := by
  induction l with
  | nil => simp [assocFind]
  | cons hd tl ih =>
    by_cases hh : hd.1 = k
    · rw [assocFind, if_pos hh] at h
      exact absurd h (by simp)
    · rw [assocFind, if_neg hh] at h
      rw [List.cons_append, assocFind, if_neg hh]
      exact ih h

theorem assocFind_append_left {α : Type} (l : List (Nat × α)) (k k' : Nat) (v : α)
    (h : k' ≠ k) :
    assocFind (l ++ [(k, v)]) k' = assocFind l k' := by
  induction l with
  | nil =>
    have : ¬ (k = k') := Ne.symm h
    simp [assocFind, this]
  | cons hd tl ih =>
    by_cases hh : hd.1 = k'
    · simp [assocFind, hh]
    · rw [List.cons_append, assocFind, if_neg hh, assocFind, if_neg hh]
      exact ih

theorem freshKey_gt {α : Type} (l : List (Nat × α)) :
    ∀ p ∈ l, p.1 < freshKey l := by
  induction l with
  | nil => simp
  | cons hd tl ih =>
    intro p hp
    rcases List.mem_cons.mp hp with hp | hp
    · subst hp
      simp only [freshKey]
      omega
    · have := ih p hp
      simp only [freshKey]
      omega

theorem assocFind_eq_none_of_forall_ne {α : Type} (l : List (Nat × α)) (k : Nat)
    (h : ∀ p ∈ l, p.1 ≠ k) : assocFind l k = none := by
  induction l with
  | nil => simp [assocFind]
  | cons hd tl ih =>
    simp only [assocFind, h hd (by simp), if_false]
    exact ih (fun p hp => h p (List.mem_cons_of_mem _ hp))

theorem assocFind_freshKey {α : Type} (l : List (Nat × α)) :
    assocFind l (freshKey l) = none :=
  assocFind_eq_none_of_forall_ne l _ (fun p hp => Nat.ne_of_lt (freshKey_gt l p hp))

/-! ## JS-level facts -/

/-- An un-awaited `checkPermission` call is truthy regardless of the
permission it would resolve to. -/
theorem jsTruthy_unawaited (b : Bool) : jsTruthy (unawaited b) = true := rfl

theorem jsDigitsCore_eq_none_of_dash (ds : List Char) (h : '-' ∈ ds) :
    jsDigitsCore ds = none := by
  have hall : ds.all (fun c => c.isDigit) = false := by
    cases hcase : ds.all (fun c => c.isDigit) with
    | false => rfl
    | true =>
      have := List.all_eq_true.mp hcase _ h
      simp [Char.isDigit] at this
  simp [jsDigitsCore, hall]

theorem jsStringToNumber_eq_none_of_dashes (s : String) (A B C : List Char)
    (h : s.data = A ++ '-' :: (B ++ '-' :: C)) :
    jsStringToNumber s = none := by
  unfold jsStringToNumber
  rw [h]
  cases A with
  | nil =>
    simp [jsDigitsCore_eq_none_of_dash (B ++ '-' :: C) (by simp)]
  | cons a A' =>
    simp only [List.cons_append]
    have hA' : jsDigitsCore (A' ++ '-' :: (B ++ '-' :: C)) = none :=
      jsDigitsCore_eq_none_of_dash _ (by simp)
    have hfull : jsDigitsCore (a :: (A' ++ '-' :: (B ++ '-' :: C))) = none :=
      jsDigitsCore_eq_none_of_dash _ (by simp)
    by_cases ha : a = '-'
    · simp [ha, hA']
    · by_cases hb : a = '+'
      · simp [ha, hb, hA']
      · simp [ha, hb, hfull]

/-- The date strings produced by the `expirationDate` getter never
satisfy the string-vs-Date comparison: `ToNumber("YYYY-MM-DD")` is `NaN`,
so `foundProduct.expirationDate <= currentDate` is `false` for every
stored date and every current time — the expiry rejection is dead code. -/
theorem jsLeStringDate_isoDatePart (e t : Int) :
    jsLeStringDate (isoDatePart e) t = false := by
  have hnone : jsStringToNumber (isoDatePart e) = none := by
    apply jsStringToNumber_eq_none_of_dashes _
      (toString (civilFromDays (e / 86400000)).1).data
      (pad2 (civilFromDays (e / 86400000)).2.1.toNat).data
      (pad2 (civilFromDays (e / 86400000)).2.2.toNat).data
    simp [isoDatePart, String.data_append]
  simp [jsLeStringDate, hnone]

/-! ## Claims C1, C6, C7 (code defects, settled at concrete inputs) -/

/-- C1: the spec's invariant "stock is never negative under any sequence
of core operations, including a sale listing the same product in more
than one line item" fails on the code.  With product 1 at stock 5, a
single `postSale` whose two line items each request quantity 3 of
product 1 succeeds (each line is checked against the unmutated stock 5)
and leaves the stock at −1: the `$inc` update bypasses the schema's
non-negativity validator. -/
theorem C1_duplicate_line_items_drive_stock_negative :
    stockOf dbDupSale 1 = some 5 ∧
    (postSale dbDupSale tNowMs true [⟨1, 3⟩, ⟨1, 3⟩] 7 8).resp.status = 201 ∧
    stockOf (postSale dbDupSale tNowMs true [⟨1, 3⟩, ⟨1, 3⟩] 7 8).db 1 = some (-1) := by
  refine ⟨rfl, ?_, ?_⟩ <;> decide

/-- C6: the claim "selling a product whose expirationDate is strictly in
the past fails with a precondition error and no side effects" fails on
the code.  Product 1 of `dbExpiredSale` expired yesterday
(`tYesterdayMs < tNowMs`), yet `postSale` returns 201, decrements the
stock from 10 to 8 and persists the sale: the expiry check compares the
getter's `"YYYY-MM-DD"` string against a `Date`, which is always
`false`. -/
theorem C6_expired_product_is_still_sold :
    tYesterdayMs < (tNowMs : Int) ∧
    (assocFind dbExpiredSale.products 1).map (fun p => p.expirationDate) =
      some (some tYesterdayMs) ∧
    (postSale dbExpiredSale tNowMs true [⟨1, 2⟩] 7 8).resp.status = 201 ∧
    stockOf (postSale dbExpiredSale tNowMs true [⟨1, 2⟩] 7 8).db 1 = some 8 ∧
    ((postSale dbExpiredSale tNowMs true [⟨1, 2⟩] 7 8).db.sales.length = 1) := by
  refine ⟨by decide, rfl, ?_, ?_, ?_⟩ <;> decide

/-- C7: the claim "a caller whose role lacks the operation's required
permission code gets 403 and no state change" fails on the code.  The
default `employee` role lacks `update_status_purchases`
(`checkPermission` resolves to `false`), yet `deactivatePurchase`
proceeds and mutates stock, because the controller tests the un-awaited
`checkPermission(...)` call — a `Promise`, which is truthy for any
resolution value. -/
theorem C7_permission_gate_is_dead_code :
    checkPermission rolesEmployee 3 "update_status_purchases" = false ∧
    (deactivatePurchase dbPermBypass
        (checkPermission rolesEmployee 3 "update_status_purchases") 4 "defect").resp.status
      = 200 ∧
    stockOf dbPermBypass 2 = some 6 ∧
    stockOf (deactivatePurchase dbPermBypass
        (checkPermission rolesEmployee 3 "update_status_purchases") 4 "defect").db 2
      = some 1 ∧
    (∀ b : Bool, jsTruthy (unawaited b) = true) := by
  refine ⟨?_, ?_, rfl, ?_, ?_⟩ <;> decide

/-! ## Claim C4: terminal sale states are frozen -/

/-- C4: for every sale whose status is `completed` or `cancelled`, any
call of `updateSaleStatus` on it — whatever the target status, the
caller's permission, or the rest of the store — answers 400 and leaves
the entire store (sale status and all stocks included) unchanged. -/
theorem C4_terminal_sale_states_are_frozen (db : DB) (hasPerm : Bool) (id : Nat)
    (sale : Sale) (target : String)
    (hfind : assocFind db.sales id = some sale)
    (hterm : sale.status = SaleStatus.completed ∨ sale.status = SaleStatus.cancelled) :
    (updateSaleStatus db hasPerm id target).resp.status = 400 ∧
    (updateSaleStatus db hasPerm id target).db = db := by
  have hgate : (!(jsTruthy (unawaited hasPerm))) = false := by simp [jsTruthy_unawaited]
  rcases hterm with hterm | hterm <;>
    (simp only [updateSaleStatus, hgate, hfind, hterm]
     split
     · simp_all
     · split <;> simp)

/-- C4 witness: the completed sale of `dbTerminalSale` rejects a
`cancelled` request with 400 and no change. -/
theorem C4_witness :
    (updateSaleStatus dbTerminalSale true 5 "cancelled").resp.status = 400 ∧
    (updateSaleStatus dbTerminalSale true 5 "cancelled").db = dbTerminalSale :=
  C4_terminal_sale_states_are_frozen dbTerminalSale true 5 terminalSale "cancelled"
    rfl (Or.inl rfl)

/-! ## Claim C3: deactivation with insufficient stock is rejected whole -/

/-- If some line item's product exists with stock below the line's
quantity, the pre-check loop of `deactivatePurchase` reports a 400
(whichever failing line it hits first). -/
theorem deactivateCheck_insufficient (ps : List (Nat × Product)) (items : List PurchaseItem)
    (h : ∃ it ∈ items, ∃ p, assocFind ps it.product = some p ∧ p.stock < it.quantity) :
    ∃ r, deactivateCheck ps items = some r ∧ r.status = 400 := by
  induction items with
  | nil => simp at h
  | cons hd tl ih =>
    obtain ⟨it, hmem, p, hfind, hlt⟩ := h
    rcases List.mem_cons.mp hmem with heq | hmem'
    · subst heq
      refine ⟨⟨400, "Cannot deactivate purchase. Product '" ++ p.name ++
        "' doesn't have sufficient stock to reverse the purchase"⟩, ?_, rfl⟩
      simp only [deactivateCheck, hfind, if_pos hlt]
    · cases hf : assocFind ps hd.product with
      | none =>
        simp only [deactivateCheck, hf]
        exact ih ⟨it, hmem', p, hfind, hlt⟩
      | some q =>
        by_cases hq : q.stock < hd.quantity
        · refine ⟨⟨400, "Cannot deactivate purchase. Product '" ++ q.name ++
            "' doesn't have sufficient stock to reverse the purchase"⟩, ?_, rfl⟩
          simp only [deactivateCheck, hf, if_pos hq]
        · simp only [deactivateCheck, hf, if_neg hq]
          exact ih ⟨it, hmem', p, hfind, hlt⟩

/-- C3: for every active purchase with a line whose product exists but
holds less stock than that line's quantity, `deactivatePurchase` with a
non-empty reason answers 400 and changes nothing — no stock moves, the
purchase stays active (whole-transition rejection, duplicate product
lines included, since every line is checked before any decrement). -/
theorem C3_insufficient_reversal_rejected_without_effect (db : DB) (hasPerm : Bool)
    (id : Nat) (reason : String) (purchase : Purchase)
    (hfind : assocFind db.purchases id = some purchase)
    (hactive : purchase.status = EntStatus.active)
    (hreason : ¬ (jsTrim reason = ""))
    (hinsuff : ∃ it ∈ purchase.products, ∃ p,
      assocFind db.products it.product = some p ∧ p.stock < it.quantity) :
    (deactivatePurchase db hasPerm id reason).resp.status = 400 ∧
    (deactivatePurchase db hasPerm id reason).db = db := by
  have hgate : (!(jsTruthy (unawaited hasPerm))) = false := by simp [jsTruthy_unawaited]
  obtain ⟨r, hr, hr400⟩ := deactivateCheck_insufficient db.products purchase.products hinsuff
  simp [deactivatePurchase, hgate, hreason, hfind, hactive, hr, hr400]

/-- C3 witness: in `dbDeactInsufficient` the purchase's second line needs
5 units of product 2 but only 2 are in stock: 400 and no change. -/
theorem C3_witness :
    (deactivatePurchase dbDeactInsufficient true 4 "damaged").resp.status = 400 ∧
    (deactivatePurchase dbDeactInsufficient true 4 "damaged").db = dbDeactInsufficient :=
  C3_insufficient_reversal_rejected_without_effect dbDeactInsufficient true 4 "damaged"
    insufficientPurchase rfl rfl (by decide)
    ⟨⟨2, 5, 20, 100⟩, by decide, ⟨"B", 7, none, 2, .active⟩, rfl, by decide⟩

/-! ## Store-mutation lemmas shared by several claims -/

/-- Effect of a `$inc` stock update on subsequent lookups. -/
theorem assocFind_incStockUnchecked (ps : List (Nat × Product)) (k : Nat) (δ : Int)
    (j : Nat) :
    assocFind (incStockUnchecked ps k δ) j =
      if j = k then (assocFind ps k).map (fun p => { p with stock := p.stock + δ })
      else assocFind ps j := by
  unfold incStockUnchecked
  cases hk : assocFind ps k with
  | none =>
    by_cases hj : j = k
    · simp [hj, hk]
    · simp [hj]
  | some p =>
    by_cases hj : j = k
    · subst hj
      rw [assocFind_assocSet_self, hk]
      simp
    · rw [assocFind_assocSet_ne _ _ _ _ hj]
      simp [hj]

/-- `$inc` updates do not change which products exist. -/
theorem isSome_incStockUnchecked (ps : List (Nat × Product)) (k : Nat) (δ : Int)
    (j : Nat) :
    (assocFind (incStockUnchecked ps k δ) j).isSome = (assocFind ps j).isSome := by
  rw [assocFind_incStockUnchecked]
  by_cases hj : j = k
  · subst hj
    simp
  · simp [hj]

/-! ## Claim C9: the identifier allocator -/

/-- C9: whenever the lexicographically greatest existing sale id matches
`Sa<two digits>` with value `NN < 99` and `Sa<NN+1 zero-padded>` is
unused, `generateSaleId` returns exactly `Sa<NN+1 zero-padded>` (the
pure-increment path returns the first free candidate immediately). -/
theorem C9_allocator_returns_next_sequential_id (ids : List String) (nowMs : Nat)
    (last : String)
    (hmax : maxId ids = some last)
    (hshape : idShape "Sa" last = true)
    (hlt : digitsVal (last.drop 2).data < 99)
    (hfree : ids.contains ("Sa" ++ pad2 (digitsVal (last.drop 2).data + 1)) = false) :
    generateSaleId ids nowMs = "Sa" ++ pad2 (digitsVal (last.drop 2).data + 1) := by
  have hc : ¬ (ids.contains ("Sa" ++ pad2 (digitsVal (last.drop 2).data + 1)) = true) := by
    rw [hfree]
    exact Bool.false_ne_true
  have hscan : scanFrom "Sa" ids (digitsVal (last.drop 2).data + 1) 100 =
      some ("Sa" ++ pad2 (digitsVal (last.drop 2).data + 1)) := by
    rw [show (100 : Nat) = 99 + 1 from rfl, scanFrom, if_neg hc]
  simp only [generateSaleId, generateSeqId, hmax, hshape, if_true, hscan]

/-- C9 witness: with existing ids Sa01..Sa05 the allocator returns
"Sa06". -/
theorem C9_witness :
    generateSaleId ["Sa01", "Sa02", "Sa03", "Sa04", "Sa05"] 1234 = "Sa06" := by
  have h := C9_allocator_returns_next_sequential_id
    ["Sa01", "Sa02", "Sa03", "Sa04", "Sa05"] 1234 "Sa05"
    (by decide) (by decide) (by decide) (by decide)
  exact h.trans (by decide)

/-! ## Claim C5: missing referenced entities -/

/-- All-items validity gives an empty `validatePurchaseItems` error
list. -/
theorem validatePurchaseItems_nil (items : List PurchaseReqItem) (i : Nat)
    (h : ∀ it ∈ items, 0 < it.quantity ∧ 0 < it.purchase_price) :
    validatePurchaseItems items i = [] := by
  induction items generalizing i with
  | nil => rfl
  | cons hd tl ih =>
    obtain ⟨hq, hp⟩ := h hd (by simp)
    simp only [validatePurchaseItems, if_neg (by omega : ¬ hd.quantity ≤ 0),
      if_neg (by omega : ¬ hd.purchase_price ≤ 0), List.nil_append]
    exact ih (i + 1) (fun it hit => h it (List.mem_cons_of_mem _ hit))

theorem validatePurchaseData_nil (items : List PurchaseReqItem)
    (hne : items ≠ [])
    (h : ∀ it ∈ items, 0 < it.quantity ∧ 0 < it.purchase_price) :
    validatePurchaseData items = [] := by
  unfold validatePurchaseData
  rw [validatePurchaseItems_nil items 0 h]
  simp [hne]

/-- The `postPurchase` loop on `pre ++ bad :: rest`, where every product
of `pre` exists (active, non-negative stock and price) and `bad`'s
product is missing: it stops at `bad` with a 404, after having
incremented the stock of every line of `pre`. -/
theorem purchaseItemsLoop_missing (bad : PurchaseReqItem) (rest : List PurchaseReqItem)
    (pre : List PurchaseReqItem) :
    ∀ (ps : List (Nat × Product)) (i : Nat) (acc : List PurchaseItem) (total : Int),
    (∀ it ∈ pre, 0 ≤ it.quantity ∧ ∃ p, assocFind ps it.product = some p ∧
        p.status = EntStatus.active ∧ 0 ≤ p.stock ∧ 0 ≤ p.price) →
    assocFind ps bad.product = none →
    purchaseItemsLoop ps i acc total (pre ++ bad :: rest) =
      .error (⟨404, "Product not found at index " ++ toString (i + pre.length)⟩,
        purchaseIncApplied ps pre) := by
  induction pre with
  | nil =>
    intro ps i acc total _ hbad
    simp only [List.nil_append, purchaseItemsLoop, hbad, List.length_nil, Nat.add_zero,
      purchaseIncApplied]
  | cons hd pre' ih =>
    intro ps i acc total hpre hbad
    obtain ⟨hq, p, hfind, hact, hstock, hprice⟩ := hpre hd (by simp)
    have hcond : ¬ (({ p with stock := p.stock + hd.quantity } : Product).stock < 0 ∨
        ({ p with stock := p.stock + hd.quantity } : Product).price < 0) := by
      push_neg
      constructor
      · show (0 : Int) ≤ p.stock + hd.quantity
        omega
      · show (0 : Int) ≤ p.price
        exact hprice
    have hsave : incrementStock p hd.quantity =
        .ok { p with stock := p.stock + hd.quantity } := by
      unfold incrementStock saveProduct
      rw [if_neg hcond]
    have hbad' : assocFind (assocSet ps hd.product { p with stock := p.stock + hd.quantity })
        bad.product = none := by
      have hne : bad.product ≠ hd.product := by
        intro he
        rw [he, hfind] at hbad
        exact Option.some_ne_none _ hbad
      rw [assocFind_assocSet_ne _ _ _ _ hne]
      exact hbad
    have hpre' : ∀ it ∈ pre', 0 ≤ it.quantity ∧ ∃ q,
        assocFind (assocSet ps hd.product { p with stock := p.stock + hd.quantity })
          it.product = some q ∧
        q.status = EntStatus.active ∧ 0 ≤ q.stock ∧ 0 ≤ q.price := by
      intro it hit
      obtain ⟨hq', q, hfq, hqa, hqs, hqp⟩ := hpre it (List.mem_cons_of_mem _ hit)
      refine ⟨hq', ?_⟩
      by_cases he : it.product = hd.product
      · rw [he] at hfq
        have hqp' : q = p := by
          have h2 := hfq.symm.trans hfind
          injection h2
        subst hqp'
        refine ⟨{ q with stock := q.stock + hd.quantity }, ?_, hqa, ?_, hqp⟩
        · rw [he, assocFind_assocSet_self, hfind]
          simp
        · show (0 : Int) ≤ q.stock + hd.quantity
          omega
      · rw [assocFind_assocSet_ne _ _ _ _ he]
        exact ⟨q, hfq, hqa, hqs, hqp⟩
    have hnact : ¬ (p.status ≠ EntStatus.active) := by simp [hact]
    simp only [List.cons_append, purchaseItemsLoop, hfind]
    rw [if_neg hnact]
    simp only [hsave, List.append_eq]
    rw [ih _ (i + 1) _ _ hpre' hbad']
    have hlen : i + 1 + pre'.length = i + (hd :: pre').length := by
      simp only [List.length_cons]
      omega
    rw [hlen]
    have happ : purchaseIncApplied
        (assocSet ps hd.product { p with stock := p.stock + hd.quantity }) pre' =
        purchaseIncApplied ps (hd :: pre') := by
      simp only [purchaseIncApplied, hfind]
    rw [happ]

/-- The cancel-restore loop of `updateSaleStatus` on `pre ++ bad :: rest`
where every product of `pre` exists and `bad`'s product is missing: it
stops at `bad` with the 404 early return, after having restored every
line of `pre`. -/
theorem restoreLoop_missing (bad : SaleItem) (rest : List SaleItem)
    (pre : List SaleItem) :
    ∀ (ps : List (Nat × Product)),
    (∀ it ∈ pre, (assocFind ps it.product).isSome = true) →
    assocFind ps bad.product = none →
    restoreLoop ps (pre ++ bad :: rest) = .error (restoreStockLoop ps pre) := by
  induction pre with
  | nil =>
    intro ps _ hbad
    simp only [List.nil_append, restoreLoop, hbad, restoreStockLoop]
  | cons hd pre' ih =>
    intro ps hpre hbad
    obtain ⟨q, hq⟩ := Option.isSome_iff_exists.mp (hpre hd (by simp))
    have hbad' : assocFind (incStockUnchecked ps hd.product hd.quantity) bad.product = none := by
      rw [assocFind_incStockUnchecked]
      have hne : bad.product ≠ hd.product := by
        intro he
        rw [he, hq] at hbad
        exact Option.some_ne_none _ hbad
      rw [if_neg hne]
      exact hbad
    have hpre' : ∀ it ∈ pre',
        (assocFind (incStockUnchecked ps hd.product hd.quantity) it.product).isSome = true := by
      intro it hit
      rw [isSome_incStockUnchecked]
      exact hpre it (List.mem_cons_of_mem _ hit)
    simp only [List.cons_append, restoreLoop, hq, List.append_eq]
    rw [ih _ hpre' hbad']
    simp only [restoreStockLoop]

/-- C5 counterexample: the claim "createPurchase with a missing product
at index i > 0 leaves every product's stock unchanged, including indices
before i" is false: in `dbMissingPurchase` (product 1 at stock 10,
product 2 absent), `postPurchase` of lines [(1, qty 5), (2, qty 1)]
answers 404 — and leaves product 1 at stock 15. -/
theorem C5_counterexample :
    (postPurchase dbMissingPurchase tNowMs true [⟨1, 5, 50⟩, ⟨2, 1, 50⟩] 9).resp.status
      = 404 ∧
    stockOf dbMissingPurchase 1 = some 10 ∧
    stockOf (postPurchase dbMissingPurchase tNowMs true [⟨1, 5, 50⟩, ⟨2, 1, 50⟩] 9).db 1
      = some 15 := by
  refine ⟨?_, rfl, ?_⟩ <;> decide

/-- C5 amended: when a referenced product is missing, the operation
reports 404 and commits no record/status change, and the stocks at the
missing line and after it are untouched — but the mutations of the lines
BEFORE the first missing one have already been applied and are not
rolled back.  Part one: `postPurchase` with the first missing product at
position `pre.length` creates no purchase and leaves the store with
exactly the prefix increments.  Part two: cancelling a `processing` sale
whose line at position `pre.length` references a vanished product
answers 404, keeps the sale in `processing`, and leaves exactly the
prefix restorations applied. -/
theorem C5_missing_entity_partial_effect :
    (∀ (db : DB) (nowMs : Nat) (provider : Nat) (prov : Provider)
        (pre : List PurchaseReqItem) (bad : PurchaseReqItem) (rest : List PurchaseReqItem),
      assocFind db.providers provider = some prov →
      prov.status = EntStatus.active →
      (∀ it ∈ pre ++ bad :: rest, 0 < it.quantity ∧ 0 < it.purchase_price) →
      (∀ it ∈ pre, ∃ p, assocFind db.products it.product = some p ∧
          p.status = EntStatus.active ∧ 0 ≤ p.stock ∧ 0 ≤ p.price) →
      assocFind db.products bad.product = none →
      (postPurchase db nowMs true (pre ++ bad :: rest) provider).resp.status = 404 ∧
      (postPurchase db nowMs true (pre ++ bad :: rest) provider).db.purchases
        = db.purchases ∧
      (postPurchase db nowMs true (pre ++ bad :: rest) provider).db.products
        = purchaseIncApplied db.products pre) ∧
    (∀ (db : DB) (hasPerm : Bool) (id : Nat) (sale : Sale)
        (pre : List SaleItem) (bad : SaleItem) (rest : List SaleItem),
      assocFind db.sales id = some sale →
      sale.status = SaleStatus.processing →
      sale.products = pre ++ bad :: rest →
      (∀ it ∈ pre, (assocFind db.products it.product).isSome = true) →
      assocFind db.products bad.product = none →
      (updateSaleStatus db hasPerm id "cancelled").resp.status = 404 ∧
      (updateSaleStatus db hasPerm id "cancelled").db.sales = db.sales ∧
      (updateSaleStatus db hasPerm id "cancelled").db.products
        = restoreStockLoop db.products pre) := by
  constructor
  · intro db nowMs provider prov pre bad rest hprov hpact hvalid hpre hbad
    have hgate : (!(jsTruthy (unawaited true))) = false := by simp [jsTruthy_unawaited]
    have hdata : validatePurchaseData (pre ++ bad :: rest) = [] :=
      validatePurchaseData_nil _ (by simp) hvalid
    have hloop := purchaseItemsLoop_missing bad rest pre db.products 0 [] 0
      (fun it hit => ⟨le_of_lt (hvalid it (List.mem_append_left _ hit)).1,
        hpre it hit⟩) hbad
    simp only [postPurchase, hgate, Bool.false_eq_true, if_false, hdata, hprov, hpact,
      ne_eq, not_true_eq_false, hloop]
    simp [hpact]
  · intro db hasPerm id sale pre bad rest hfind hstat hprods hpre hbad
    have hgate : (!(jsTruthy (unawaited hasPerm))) = false := by simp [jsTruthy_unawaited]
    have hloop := restoreLoop_missing bad rest pre db.products hpre hbad
    rw [← hprods] at hloop
    have hc1 : (["processing", "completed", "cancelled"].contains "cancelled") = true := rfl
    have hc2 : "cancelled" ∈ allowedTransitions SaleStatus.processing := by decide
    simp [updateSaleStatus, hgate, hfind, hstat, hc1, hc2, hloop, SaleStatus.str]

/-- C5 witness for the amended statement, instantiating both parts in
`dbMissingPurchaseW` (product 3 exists at stock 4, product 99 is
missing). -/
theorem C5_witness :
    ((postPurchase dbMissingPurchaseW tNowMs true [⟨3, 2, 80⟩, ⟨99, 1, 80⟩] 9).resp.status
        = 404 ∧
      (postPurchase dbMissingPurchaseW tNowMs true [⟨3, 2, 80⟩, ⟨99, 1, 80⟩] 9).db.purchases
        = dbMissingPurchaseW.purchases ∧
      (postPurchase dbMissingPurchaseW tNowMs true [⟨3, 2, 80⟩, ⟨99, 1, 80⟩] 9).db.products
        = purchaseIncApplied dbMissingPurchaseW.products [⟨3, 2, 80⟩]) ∧
    ((updateSaleStatus dbMissingPurchaseW true 6 "cancelled").resp.status = 404 ∧
      (updateSaleStatus dbMissingPurchaseW true 6 "cancelled").db.sales
        = dbMissingPurchaseW.sales ∧
      (updateSaleStatus dbMissingPurchaseW true 6 "cancelled").db.products
        = restoreStockLoop dbMissingPurchaseW.products [⟨3, 2, 80, 160⟩]) :=
  ⟨C5_missing_entity_partial_effect.1 dbMissingPurchaseW tNowMs 9 ⟨.active⟩
      [⟨3, 2, 80⟩] ⟨99, 1, 80⟩ [] rfl rfl (by decide)
      (by
        intro it hit
        rw [List.mem_singleton] at hit
        subst hit
        exact ⟨⟨"C", 80, none, 4, .active⟩, rfl, rfl, by decide, by decide⟩) rfl,
   C5_missing_entity_partial_effect.2 dbMissingPurchaseW true 6
      ⟨"Sa01", 7, 8, [⟨3, 2, 80, 160⟩, ⟨99, 1, 80, 80⟩], 240, .processing⟩
      [⟨3, 2, 80, 160⟩] ⟨99, 1, 80, 80⟩ [] rfl rfl rfl
      (by
        intro it hit
        rw [List.mem_singleton] at hit
        subst hit
        rfl) rfl⟩

/-! ## Claim C2: single-line sale lifecycle -/

/-- Because of the getter-vs-Date comparison (see
`jsLeStringDate_isoDatePart`), the expiry guard is `false` for every
product and every current time. -/
theorem productExpired_false (p : Product) (nowMs : Int) :
    productExpired p nowMs = false := by
  unfold productExpired productExpirationGet
  cases p.expirationDate with
  | none => rfl
  | some e => simp [jsLeStringDate_isoDatePart]

/-- C2: creating a sale with the single line (product `P`, quantity 3)
while `P` is active, unexpired and has stock ≥ 3 and catalog price 100:
the creation answers 201, decrements `P`'s stock by exactly 3 and
persists the sale with `total = 300` in `processing`; transitioning that
sale to `cancelled` answers 200 and restores `P`'s record exactly;
transitioning it to `completed` instead answers 200 and leaves every
product untouched.  (`hfreshid` states that the display-id allocator
found an unused id, which rules out the 409 duplicate-id branch.) -/
theorem C2_single_line_sale_lifecycle (db : DB) (nowMs : Nat) (P c b : Nat)
    (p : Product) (cust : Customer) (br : Branch)
    (hp : assocFind db.products P = some p)
    (hact : p.status = EntStatus.active)
    (hstock : 3 ≤ p.stock)
    (hprice : p.price = 100)
    (hexp : ∀ e, p.expirationDate = some e → (nowMs : Int) < e)
    (hc : assocFind db.customers c = some cust)
    (hca : cust.status = EntStatus.active)
    (hb : assocFind db.branches b = some br)
    (hba : br.status = EntStatus.active)
    (hfreshid : (db.sales.map (fun s => s.2.id)).contains
        (generateSaleId (db.sales.map (fun s => s.2.id)) nowMs) = false) :
    (postSale db nowMs true [⟨P, 3⟩] c b).resp.status = 201 ∧
    assocFind (postSale db nowMs true [⟨P, 3⟩] c b).db.products P
      = some { p with stock := p.stock - 3 } ∧
    (∃ sale : Sale,
      assocFind (postSale db nowMs true [⟨P, 3⟩] c b).db.sales (freshKey db.sales)
        = some sale ∧
      sale.total = 300 ∧ sale.status = SaleStatus.processing) ∧
    (updateSaleStatus (postSale db nowMs true [⟨P, 3⟩] c b).db true
        (freshKey db.sales) "cancelled").resp.status = 200 ∧
    assocFind (updateSaleStatus (postSale db nowMs true [⟨P, 3⟩] c b).db true
        (freshKey db.sales) "cancelled").db.products P = some p ∧
    (updateSaleStatus (postSale db nowMs true [⟨P, 3⟩] c b).db true
        (freshKey db.sales) "completed").resp.status = 200 ∧
    (updateSaleStatus (postSale db nowMs true [⟨P, 3⟩] c b).db true
        (freshKey db.sales) "completed").db.products
      = (postSale db nowMs true [⟨P, 3⟩] c b).db.products := by
  have hgate : (!(jsTruthy (unawaited true))) = false := by simp [jsTruthy_unawaited]
  have hvdata : validateSaleData [⟨P, 3⟩] = [] := rfl
  have hval : validateProductsAvailability db.products (nowMs : Int) [⟨P, 3⟩] 0 =
      .ok ([⟨P, 3, 100, 300⟩], 300) := by
    simp only [validateProductsAvailability, hp, if_neg (by simp [hact] :
      ¬ (p.status ≠ EntStatus.active)), if_neg (by omega : ¬ (p.stock < (3 : Int))),
      productExpired_false p (nowMs : Int), Bool.false_eq_true, if_false, hprice]
    norm_num
  have hsale : presaveSale ⟨generateSaleId (db.sales.map (fun s => s.2.id)) nowMs, c, b,
      [⟨P, 3, 100, 300⟩], 300, SaleStatus.processing⟩ =
      ⟨generateSaleId (db.sales.map (fun s => s.2.id)) nowMs, c, b,
      [⟨P, 3, 100, 300⟩], 300, SaleStatus.processing⟩ := rfl
  have hr : postSale db nowMs true [⟨P, 3⟩] c b =
      ⟨⟨201, "Sale created successfully and stock has been reserved for processing."⟩,
       { db with
          products := incStockUnchecked db.products P (-3)
          sales := db.sales ++ [(freshKey db.sales,
            ⟨generateSaleId (db.sales.map (fun s => s.2.id)) nowMs, c, b,
             [⟨P, 3, 100, 300⟩], 300, SaleStatus.processing⟩)] }⟩ := by
    simp only [postSale, hgate, Bool.false_eq_true, if_false, hvdata, hc,
      if_neg (by simp [hca] : ¬ (cust.status ≠ EntStatus.active)), hb,
      if_neg (by simp [hba] : ¬ (br.status ≠ EntStatus.active)), hval,
      reserveLoop, hsale, hfreshid]
    norm_num [saleValid]
  have hfindP : assocFind (incStockUnchecked db.products P (-3)) P =
      some { p with stock := p.stock - 3 } := by
    rw [assocFind_incStockUnchecked, if_pos rfl, hp]
    simp only [Option.map_some']
    have h3 : p.stock + (-3 : Int) = p.stock - 3 := by omega
    rw [h3]
  have hfindSale : assocFind (db.sales ++ [(freshKey db.sales,
      (⟨generateSaleId (db.sales.map (fun s => s.2.id)) nowMs, c, b,
       [⟨P, 3, 100, 300⟩], 300, SaleStatus.processing⟩ : Sale))]) (freshKey db.sales) =
      some ⟨generateSaleId (db.sales.map (fun s => s.2.id)) nowMs, c, b,
       [⟨P, 3, 100, 300⟩], 300, SaleStatus.processing⟩ :=
    assocFind_append_right _ _ _ (assocFind_freshKey _)
  have hrestore : restoreLoop (incStockUnchecked db.products P (-3))
      [⟨P, 3, 100, 300⟩] = .ok (incStockUnchecked (incStockUnchecked db.products P (-3)) P 3) := by
    simp only [restoreLoop, hfindP]
  have hback : assocFind (incStockUnchecked (incStockUnchecked db.products P (-3)) P 3) P
      = some p := by
    rw [assocFind_incStockUnchecked, if_pos rfl, hfindP]
    simp only [Option.map_some']
    congr 1
    have : p.stock - 3 + 3 = p.stock := by omega
    rw [this]
  have hc1 : (["processing", "completed", "cancelled"].contains "cancelled") = true := rfl
  have hc1' : (["processing", "completed", "cancelled"].contains "completed") = true := rfl
  have hm1 : "cancelled" ∈ allowedTransitions SaleStatus.processing := by decide
  have hm2 : "completed" ∈ allowedTransitions SaleStatus.processing := by decide
  refine ⟨by rw [hr], by rw [hr]; exact hfindP,
    ⟨_, by rw [hr]; exact hfindSale, rfl, rfl⟩, ?_, ?_, ?_, ?_⟩
  · rw [hr]
    simp [updateSaleStatus, hgate, hc1, hfindSale, hm1, SaleStatus.str, hrestore]
  · rw [hr]
    simp only [updateSaleStatus]
    simp [hgate, hc1, hfindSale, hm1, SaleStatus.str, hrestore]
    exact hback
  · rw [hr]
    simp [updateSaleStatus, hgate, hc1', hfindSale, hm2, SaleStatus.str]
  · rw [hr]
    simp [updateSaleStatus, hgate, hc1', hfindSale, hm2, SaleStatus.str]

/-- C2 witness: the concrete store `dbSingleSale` (product 1, price 100,
stock 5). -/
theorem C2_witness :
    (postSale dbSingleSale tNowMs true [⟨1, 3⟩] 7 8).resp.status = 201 ∧
    assocFind (postSale dbSingleSale tNowMs true [⟨1, 3⟩] 7 8).db.products 1
      = some { (⟨"Widget", 100, some 1768867200000, 5, .active⟩ : Product) with
          stock := (5 : Int) - 3 } ∧
    (∃ sale : Sale,
      assocFind (postSale dbSingleSale tNowMs true [⟨1, 3⟩] 7 8).db.sales
          (freshKey dbSingleSale.sales) = some sale ∧
      sale.total = 300 ∧ sale.status = SaleStatus.processing) ∧
    (updateSaleStatus (postSale dbSingleSale tNowMs true [⟨1, 3⟩] 7 8).db true
        (freshKey dbSingleSale.sales) "cancelled").resp.status = 200 ∧
    assocFind (updateSaleStatus (postSale dbSingleSale tNowMs true [⟨1, 3⟩] 7 8).db true
        (freshKey dbSingleSale.sales) "cancelled").db.products 1
      = some ⟨"Widget", 100, some 1768867200000, 5, .active⟩ ∧
    (updateSaleStatus (postSale dbSingleSale tNowMs true [⟨1, 3⟩] 7 8).db true
        (freshKey dbSingleSale.sales) "completed").resp.status = 200 ∧
    (updateSaleStatus (postSale dbSingleSale tNowMs true [⟨1, 3⟩] 7 8).db true
        (freshKey dbSingleSale.sales) "completed").db.products
      = (postSale dbSingleSale tNowMs true [⟨1, 3⟩] 7 8).db.products :=
  C2_single_line_sale_lifecycle dbSingleSale tNowMs 1 7 8
    ⟨"Widget", 100, some 1768867200000, 5, .active⟩ ⟨.active⟩ ⟨.active⟩
    rfl rfl (by decide) rfl
    (by
      intro e he
      injection he with he'
      rw [← he']
      decide)
    rfl rfl rfl rfl (by decide)

/-! ## Per-product quantity sums and record helpers (for C8 and C10) -/

theorem Product_ext_stock (p : Product) (a b : Int) (h : a = b) :
    ({ p with stock := a } : Product) = { p with stock := b } := by rw [h]

theorem sumQtyReq_nonneg (items : List PurchaseReqItem) (q : Nat)
    (h : ∀ it ∈ items, 0 ≤ it.quantity) : 0 ≤ sumQtyReq items q := by
  induction items with
  | nil => simp [sumQtyReq]
  | cons hd tl ih =>
    have h1 := h hd (by simp)
    have h2 := ih (fun it hit => h it (List.mem_cons_of_mem _ hit))
    simp only [sumQtyReq]
    by_cases he : hd.product = q <;> simp [he] <;> omega

theorem sumQtyP_nonneg (items : List PurchaseItem) (q : Nat)
    (h : ∀ it ∈ items, 0 ≤ it.quantity) : 0 ≤ sumQtyP items q := by
  induction items with
  | nil => simp [sumQtyP]
  | cons hd tl ih =>
    have h1 := h hd (by simp)
    have h2 := ih (fun it hit => h it (List.mem_cons_of_mem _ hit))
    simp only [sumQtyP]
    by_cases he : hd.product = q <;> simp [he] <;> omega

theorem mem_le_sumQtyP (items : List PurchaseItem) (it : PurchaseItem)
    (hmem : it ∈ items) (h : ∀ it' ∈ items, 0 ≤ it'.quantity) :
    it.quantity ≤ sumQtyP items it.product := by
  induction items with
  | nil => simp at hmem
  | cons hd tl ih =>
    rcases List.mem_cons.mp hmem with heq | hmem'
    · have hnn := sumQtyP_nonneg tl it.product
        (fun x hx => h x (List.mem_cons_of_mem _ hx))
      subst heq
      simp [sumQtyP]
      omega
    · have h1 := h hd (by simp)
      have h2 := ih hmem' (fun x hx => h x (List.mem_cons_of_mem _ hx))
      simp only [sumQtyP]
      by_cases he : hd.product = it.product
      · rw [if_pos he]
        omega
      · rw [if_neg he]
        omega

theorem mem_le_sumQtyReq (items : List PurchaseReqItem) (it : PurchaseReqItem)
    (hmem : it ∈ items) (h : ∀ it' ∈ items, 0 ≤ it'.quantity) :
    it.quantity ≤ sumQtyReq items it.product := by
  induction items with
  | nil => simp at hmem
  | cons hd tl ih =>
    rcases List.mem_cons.mp hmem with heq | hmem'
    · have hnn := sumQtyReq_nonneg tl it.product
        (fun x hx => h x (List.mem_cons_of_mem _ hx))
      subst heq
      simp [sumQtyReq]
      omega
    · have h1 := h hd (by simp)
      have h2 := ih hmem' (fun x hx => h x (List.mem_cons_of_mem _ hx))
      simp only [sumQtyReq]
      by_cases he : hd.product = it.product
      · rw [if_pos he]
        omega
      · rw [if_neg he]
        omega

theorem sumQtyP_map_toPurchaseItem (items : List PurchaseReqItem) (q : Nat) :
    sumQtyP (items.map toPurchaseItem) q = sumQtyReq items q := by
  induction items with
  | nil => rfl
  | cons hd tl ih =>
    simp only [List.map_cons, sumQtyP, sumQtyReq, toPurchaseItem, ih]

theorem map_stock_add_zero (o : Option Product) :
    o.map (fun p => { p with stock := p.stock + 0 }) = o := by
  cases o with
  | none => rfl
  | some p =>
    simp only [Option.map_some']
    rw [congrArg some (Product_ext_stock p _ _ (by omega : p.stock + 0 = p.stock))]

theorem map_stock_sub_zero (o : Option Product) :
    o.map (fun p => { p with stock := p.stock - 0 }) = o := by
  cases o with
  | none => rfl
  | some p =>
    simp only [Option.map_some']
    rw [congrArg some (Product_ext_stock p _ _ (by omega : p.stock - 0 = p.stock))]

/-! ## Success lemmas for the purchase-lifecycle loops -/

/-- The `postPurchase` loop succeeds when every referenced product
exists, is active and has non-negative stock and price: it returns the
validated lines and total, with each product's stock increased by its
summed requested quantity. -/
theorem purchaseItemsLoop_ok (items : List PurchaseReqItem) :
    ∀ (ps : List (Nat × Product)) (i : Nat) (acc : List PurchaseItem) (total : Int),
    (∀ it ∈ items, 0 ≤ it.quantity ∧ ∃ p, assocFind ps it.product = some p ∧
        p.status = EntStatus.active ∧ 0 ≤ p.stock ∧ 0 ≤ p.price) →
    ∃ ps', purchaseItemsLoop ps i acc total items =
        .ok (acc ++ items.map toPurchaseItem, total + itemsTotal items, ps') ∧
      ∀ q, assocFind ps' q =
        (assocFind ps q).map (fun p => { p with stock := p.stock + sumQtyReq items q }) := by
  induction items with
  | nil =>
    intro ps i acc total _
    refine ⟨ps, ?_, ?_⟩
    · simp [purchaseItemsLoop, itemsTotal]
    · intro q
      exact (map_stock_add_zero (assocFind ps q)).symm
  | cons hd rest ih =>
    intro ps i acc total hpre
    obtain ⟨hq, p, hfind, hact, hstock, hprice⟩ := hpre hd (by simp)
    have hcond : ¬ (({ p with stock := p.stock + hd.quantity } : Product).stock < 0 ∨
        ({ p with stock := p.stock + hd.quantity } : Product).price < 0) := by
      push_neg
      constructor
      · show (0 : Int) ≤ p.stock + hd.quantity
        omega
      · show (0 : Int) ≤ p.price
        exact hprice
    have hsave : incrementStock p hd.quantity =
        .ok { p with stock := p.stock + hd.quantity } := by
      unfold incrementStock saveProduct
      rw [if_neg hcond]
    have hrest : ∀ it ∈ rest, 0 ≤ it.quantity ∧ ∃ q,
        assocFind (assocSet ps hd.product { p with stock := p.stock + hd.quantity })
          it.product = some q ∧
        q.status = EntStatus.active ∧ 0 ≤ q.stock ∧ 0 ≤ q.price := by
      intro it hit
      obtain ⟨hq', q, hfq, hqa, hqs, hqp⟩ := hpre it (List.mem_cons_of_mem _ hit)
      refine ⟨hq', ?_⟩
      by_cases he : it.product = hd.product
      · rw [he] at hfq
        have hqp' : q = p := by
          have h2 := hfq.symm.trans hfind
          injection h2
        subst hqp'
        refine ⟨{ q with stock := q.stock + hd.quantity }, ?_, hqa, ?_, hqp⟩
        · rw [he, assocFind_assocSet_self, hfind]
          simp
        · show (0 : Int) ≤ q.stock + hd.quantity
          omega
      · rw [assocFind_assocSet_ne _ _ _ _ he]
        exact ⟨q, hfq, hqa, hqs, hqp⟩
    obtain ⟨ps', hloop, hrel⟩ := ih
      (assocSet ps hd.product { p with stock := p.stock + hd.quantity })
      (i + 1) (acc ++ [toPurchaseItem hd])
      (total + hd.purchase_price * hd.quantity) hrest
    refine ⟨ps', ?_, ?_⟩
    · have hnact : ¬ (p.status ≠ EntStatus.active) := by simp [hact]
      simp only [purchaseItemsLoop, hfind]
      rw [if_neg hnact]
      simp only [toPurchaseItem] at hloop
      simp only [hsave, List.append_eq]
      rw [hloop]
      have h1 : acc ++ [(⟨hd.product, hd.quantity, hd.purchase_price,
          hd.purchase_price * hd.quantity⟩ : PurchaseItem)] ++ List.map toPurchaseItem rest
          = acc ++ List.map toPurchaseItem (hd :: rest) := by
        simp [toPurchaseItem]
      have h2 : total + hd.purchase_price * hd.quantity + itemsTotal rest
          = total + itemsTotal (hd :: rest) := by
        simp only [itemsTotal]
        omega
      rw [h1, h2]
    · intro q
      rw [hrel q]
      by_cases hqe : q = hd.product
      · rw [hqe, assocFind_assocSet_self, hfind]
        simp only [Option.isSome_some, if_true, Option.map_some']
        congr 1
        apply Product_ext_stock
        show p.stock + hd.quantity + sumQtyReq rest hd.product =
          p.stock + sumQtyReq (hd :: rest) hd.product
        simp [sumQtyReq]
        omega
      · rw [assocFind_assocSet_ne _ _ _ _ hqe]
        have hsum : sumQtyReq (hd :: rest) q = sumQtyReq rest q := by
          have hne : ¬ (hd.product = q) := fun he => hqe he.symm
          simp only [sumQtyReq, if_neg hne]
          omega
        rw [hsum]

/-- The pre-check loop of `deactivatePurchase` passes when every line
whose product exists has stock at least its quantity. -/
theorem deactivateCheck_none (ps : List (Nat × Product)) (items : List PurchaseItem)
    (h : ∀ it ∈ items, ∀ p, assocFind ps it.product = some p → it.quantity ≤ p.stock) :
    deactivateCheck ps items = none := by
  induction items with
  | nil => rfl
  | cons hd tl ih =>
    have htl := fun it hit p hp => h it (List.mem_cons_of_mem _ hit) p hp
    cases hf : assocFind ps hd.product with
    | none =>
      simp only [deactivateCheck, hf]
      exact ih htl
    | some p =>
      have hle := h hd (by simp) p hf
      simp only [deactivateCheck, hf, if_neg (by omega : ¬ (p.stock < hd.quantity))]
      exact ih htl

/-- The decrement loop of `deactivatePurchase` succeeds when, for every
line whose product exists, the product's stock covers the summed
quantities of all lines naming it (and its price is schema-valid):
missing products are skipped, existing ones end up decremented by their
summed quantities. -/
theorem deactivateDec_ok (items : List PurchaseItem) :
    ∀ (ps : List (Nat × Product)),
    (∀ it ∈ items, 0 ≤ it.quantity) →
    (∀ it ∈ items, ∀ p, assocFind ps it.product = some p →
        sumQtyP items it.product ≤ p.stock ∧ 0 ≤ p.price) →
    ∃ ps', deactivateDec ps items = .ok ps' ∧
      ∀ q, assocFind ps' q =
        (assocFind ps q).map (fun p => { p with stock := p.stock - sumQtyP items q }) := by
  induction items with
  | nil =>
    intro ps _ _
    refine ⟨ps, rfl, ?_⟩
    intro q
    exact (map_stock_sub_zero (assocFind ps q)).symm
  | cons hd tl ih =>
    intro ps hqty hsuff
    have hqhd := hqty hd (by simp)
    have hqtl := fun it hit => hqty it (List.mem_cons_of_mem _ hit)
    cases hf : assocFind ps hd.product with
    | none =>
      have hsuff' : ∀ it ∈ tl, ∀ p, assocFind ps it.product = some p →
          sumQtyP tl it.product ≤ p.stock ∧ 0 ≤ p.price := by
        intro it hit p hp
        have hne : ¬ (hd.product = it.product) := by
          intro he
          rw [he, hp] at hf
          exact Option.noConfusion hf
        have := hsuff it (List.mem_cons_of_mem _ hit) p hp
        simp only [sumQtyP, if_neg hne] at this
        constructor
        · omega
        · exact this.2
      obtain ⟨ps', hloop, hrel⟩ := ih ps hqtl hsuff'
      refine ⟨ps', ?_, ?_⟩
      · simp only [deactivateDec, hf]
        exact hloop
      · intro q
        rw [hrel q]
        by_cases hqe : q = hd.product
        · rw [hqe, hf]
          rfl
        · have hne : ¬ (hd.product = q) := fun he => hqe he.symm
          have hsum : sumQtyP (hd :: tl) q = sumQtyP tl q := by
            simp only [sumQtyP, if_neg hne]
            omega
          rw [hsum]
    | some p =>
      obtain ⟨hsums, hprice⟩ := hsuff hd (by simp) p hf
      have hsumtl_nn : 0 ≤ sumQtyP tl hd.product := sumQtyP_nonneg tl hd.product hqtl
      have hhdsum : hd.quantity + sumQtyP tl hd.product ≤ p.stock := by
        simpa [sumQtyP] using hsums
      have hdec : decrementStock p hd.quantity =
          .ok { p with stock := p.stock - hd.quantity } := by
        unfold decrementStock saveProduct
        rw [if_neg (by omega : ¬ (p.stock < hd.quantity)), if_neg]
        push_neg
        constructor
        · show (0 : Int) ≤ p.stock - hd.quantity
          omega
        · show (0 : Int) ≤ p.price
          exact hprice
      have hsuff' : ∀ it ∈ tl, ∀ q',
          assocFind (assocSet ps hd.product { p with stock := p.stock - hd.quantity })
            it.product = some q' →
          sumQtyP tl it.product ≤ q'.stock ∧ 0 ≤ q'.price := by
        intro it hit q' hq'
        by_cases he : it.product = hd.product
        · rw [he, assocFind_assocSet_self, hf] at hq'
          simp only [Option.isSome_some, if_true] at hq'
          have hq'' : q' = { p with stock := p.stock - hd.quantity } := by
            injection hq' with h2
            exact h2.symm
          subst hq''
          have := hsuff it (List.mem_cons_of_mem _ hit) p (by rw [he]; exact hf)
          rw [he] at this ⊢
          simp only [sumQtyP, if_pos rfl] at this
          constructor
          · show sumQtyP tl hd.product ≤ p.stock - hd.quantity
            omega
          · show (0 : Int) ≤ p.price
            exact hprice
        · rw [assocFind_assocSet_ne _ _ _ _ he] at hq'
          have := hsuff it (List.mem_cons_of_mem _ hit) q' hq'
          have hne : ¬ (hd.product = it.product) := fun h2 => he h2.symm
          simp only [sumQtyP, if_neg hne] at this
          constructor
          · omega
          · exact this.2
      obtain ⟨ps', hloop, hrel⟩ :=
        ih (assocSet ps hd.product { p with stock := p.stock - hd.quantity }) hqtl hsuff'
      refine ⟨ps', ?_, ?_⟩
      · simp only [deactivateDec, hf, hdec]
        exact hloop
      · intro q
        rw [hrel q]
        by_cases hqe : q = hd.product
        · rw [hqe, assocFind_assocSet_self, hf]
          simp only [Option.isSome_some, if_true, Option.map_some']
          congr 1
          apply Product_ext_stock
          show p.stock - hd.quantity - sumQtyP tl hd.product =
            p.stock - sumQtyP (hd :: tl) hd.product
          simp [sumQtyP]
          omega
        · rw [assocFind_assocSet_ne _ _ _ _ hqe]
          have hne : ¬ (hd.product = q) := fun he => hqe he.symm
          have hsum : sumQtyP (hd :: tl) q = sumQtyP tl q := by
            simp only [sumQtyP, if_neg hne]
            omega
          rw [hsum]

/-- The product pre-check of `reactivatePurchase` passes when every
referenced product exists and is active. -/
theorem reactivateCheck_none (ps : List (Nat × Product)) (items : List PurchaseItem)
    (h : ∀ it ∈ items, ∃ p, assocFind ps it.product = some p ∧
        p.status = EntStatus.active) :
    reactivateCheck ps items = none := by
  induction items with
  | nil => rfl
  | cons hd tl ih =>
    obtain ⟨p, hf, hact⟩ := h hd (by simp)
    simp only [reactivateCheck, hf, if_neg (by simp [hact] :
      ¬ (p.status ≠ EntStatus.active))]
    exact ih (fun it hit => h it (List.mem_cons_of_mem _ hit))

/-- The increment loop of `reactivatePurchase` succeeds when every
existing referenced product has non-negative stock and price: missing
products are skipped, existing ones end up incremented by their summed
quantities. -/
theorem reactivateInc_ok (items : List PurchaseItem) :
    ∀ (ps : List (Nat × Product)),
    (∀ it ∈ items, 0 ≤ it.quantity) →
    (∀ it ∈ items, ∀ p, assocFind ps it.product = some p →
        0 ≤ p.stock ∧ 0 ≤ p.price) →
    ∃ ps', reactivateInc ps items = .ok ps' ∧
      ∀ q, assocFind ps' q =
        (assocFind ps q).map (fun p => { p with stock := p.stock + sumQtyP items q }) := by
  induction items with
  | nil =>
    intro ps _ _
    refine ⟨ps, rfl, ?_⟩
    intro q
    exact (map_stock_add_zero (assocFind ps q)).symm
  | cons hd tl ih =>
    intro ps hqty hgood
    have hqhd := hqty hd (by simp)
    have hqtl := fun it hit => hqty it (List.mem_cons_of_mem _ hit)
    cases hf : assocFind ps hd.product with
    | none =>
      obtain ⟨ps', hloop, hrel⟩ := ih ps hqtl
        (fun it hit p hp => hgood it (List.mem_cons_of_mem _ hit) p hp)
      refine ⟨ps', ?_, ?_⟩
      · simp only [reactivateInc, hf]
        exact hloop
      · intro q
        rw [hrel q]
        by_cases hqe : q = hd.product
        · rw [hqe, hf]
          rfl
        · have hne : ¬ (hd.product = q) := fun he => hqe he.symm
          have hsum : sumQtyP (hd :: tl) q = sumQtyP tl q := by
            simp only [sumQtyP, if_neg hne]
            omega
          rw [hsum]
    | some p =>
      obtain ⟨hstock, hprice⟩ := hgood hd (by simp) p hf
      have hinc : incrementStock p hd.quantity =
          .ok { p with stock := p.stock + hd.quantity } := by
        unfold incrementStock saveProduct
        rw [if_neg]
        push_neg
        constructor
        · show (0 : Int) ≤ p.stock + hd.quantity
          omega
        · show (0 : Int) ≤ p.price
          exact hprice
      have hgood' : ∀ it ∈ tl, ∀ q',
          assocFind (assocSet ps hd.product { p with stock := p.stock + hd.quantity })
            it.product = some q' →
          0 ≤ q'.stock ∧ 0 ≤ q'.price := by
        intro it hit q' hq'
        by_cases he : it.product = hd.product
        · rw [he, assocFind_assocSet_self, hf] at hq'
          simp only [Option.isSome_some, if_true] at hq'
          have hq'' : q' = { p with stock := p.stock + hd.quantity } := by
            injection hq' with h2
            exact h2.symm
          subst hq''
          constructor
          · show (0 : Int) ≤ p.stock + hd.quantity
            omega
          · show (0 : Int) ≤ p.price
            exact hprice
        · rw [assocFind_assocSet_ne _ _ _ _ he] at hq'
          exact hgood it (List.mem_cons_of_mem _ hit) q' hq'
      obtain ⟨ps', hloop, hrel⟩ :=
        ih (assocSet ps hd.product { p with stock := p.stock + hd.quantity }) hqtl hgood'
      refine ⟨ps', ?_, ?_⟩
      · simp only [reactivateInc, hf, hinc]
        exact hloop
      · intro q
        rw [hrel q]
        by_cases hqe : q = hd.product
        · rw [hqe, assocFind_assocSet_self, hf]
          simp only [Option.isSome_some, if_true, Option.map_some']
          congr 1
          apply Product_ext_stock
          show p.stock + hd.quantity + sumQtyP tl hd.product =
            p.stock + sumQtyP (hd :: tl) hd.product
          simp [sumQtyP]
          omega
        · rw [assocFind_assocSet_ne _ _ _ _ hqe]
          have hne : ¬ (hd.product = q) := fun he => hqe he.symm
          have hsum : sumQtyP (hd :: tl) q = sumQtyP tl q := by
            simp only [sumQtyP, if_neg hne]
            omega
          rw [hsum]

/-! ## Claim C10: deactivation silently skips vanished products -/

/-- C10 counterexample: the claim "for EVERY active purchase containing
a line item whose product no longer exists, deactivatePurchase still
succeeds (no error, status becomes inactive)" is false as stated: in
`dbSkipMissingFail` the purchase's line 0 references the vanished
product 1, yet the call answers 400 (the OTHER line lacks stock) and the
purchase stays `active` with the store unchanged. -/
theorem C10_counterexample :
    assocFind dbSkipMissingFail.products 1 = none ∧
    (assocFind dbSkipMissingFail.purchases 4).map (fun p => p.status)
      = some EntStatus.active ∧
    (deactivatePurchase dbSkipMissingFail true 4 "reason").resp.status = 400 ∧
    (deactivatePurchase dbSkipMissingFail true 4 "reason").db = dbSkipMissingFail := by
  refine ⟨rfl, rfl, ?_, ?_⟩ <;> decide

/-- C10 amended: for every active purchase containing a line whose
product record no longer exists, PROVIDED every product that still
exists among its lines has stock covering the summed quantities of the
purchase's lines naming it, `deactivatePurchase` with a non-empty reason
succeeds (200): the missing lines are skipped by both the
stock-sufficiency check and the decrement (their lookups stay `none`),
every existing line's product is decremented by its summed quantity, and
the purchase becomes `inactive` with the reason recorded. -/
theorem C10_missing_product_lines_skipped (db : DB) (hasPerm : Bool) (id : Nat)
    (reason : String) (purchase : Purchase)
    (hfind : assocFind db.purchases id = some purchase)
    (hactive : purchase.status = EntStatus.active)
    (hreason : ¬ (jsTrim reason = ""))
    (hmissing : ∃ it ∈ purchase.products, assocFind db.products it.product = none)
    (hqty : ∀ it ∈ purchase.products, 0 ≤ it.quantity)
    (hsuff : ∀ it ∈ purchase.products, ∀ p, assocFind db.products it.product = some p →
        sumQtyP purchase.products it.product ≤ p.stock ∧ 0 ≤ p.price) :
    (deactivatePurchase db hasPerm id reason).resp.status = 200 ∧
    assocFind (deactivatePurchase db hasPerm id reason).db.purchases id =
      some { purchase with
        status := EntStatus.inactive
        deactivation_reason := some (jsTrim reason) } ∧
    (∀ q, assocFind (deactivatePurchase db hasPerm id reason).db.products q =
      (assocFind db.products q).map
        (fun p => { p with stock := p.stock - sumQtyP purchase.products q })) := by
  have hgate : (!(jsTruthy (unawaited hasPerm))) = false := by simp [jsTruthy_unawaited]
  have hcheck : deactivateCheck db.products purchase.products = none :=
    deactivateCheck_none _ _ (fun it hit p hp => by
      have h1 := (hsuff it hit p hp).1
      have h2 := mem_le_sumQtyP _ it hit hqty
      omega)
  obtain ⟨ps', hloop, hrel⟩ := deactivateDec_ok purchase.products db.products hqty hsuff
  have hr : deactivatePurchase db hasPerm id reason =
      ⟨⟨200, "Purchase deactivated successfully and stock reverted"⟩,
       { db with
          products := ps'
          purchases := assocSet db.purchases id
            { purchase with
                status := EntStatus.inactive
                deactivation_reason := some (jsTrim reason) } }⟩ := by
    simp only [deactivatePurchase, hgate, Bool.false_eq_true, if_false,
      if_neg hreason, hfind, if_neg (by simp [hactive] :
        ¬ (purchase.status ≠ EntStatus.active)), hcheck, hloop]
  refine ⟨by rw [hr], ?_, ?_⟩
  · rw [hr]
    show assocFind (assocSet db.purchases id _) id = _
    rw [assocFind_assocSet_self, hfind]
    rfl
  · intro q
    rw [hr]
    exact hrel q

/-- C10 witness: in `dbSkipMissingOk` (product 1 vanished, product 2 at
stock 6 ≥ 5) the deactivation succeeds, skips the missing line and
decrements product 2 by 5. -/
theorem C10_witness :
    (deactivatePurchase dbSkipMissingOk true 4 "reason").resp.status = 200 ∧
    assocFind (deactivatePurchase dbSkipMissingOk true 4 "reason").db.purchases 4 =
      some { skipMissingPurchase with
        status := EntStatus.inactive
        deactivation_reason := some (jsTrim "reason") } ∧
    (∀ q, assocFind (deactivatePurchase dbSkipMissingOk true 4 "reason").db.products q =
      (assocFind dbSkipMissingOk.products q).map
        (fun p => { p with stock := p.stock - sumQtyP skipMissingPurchase.products q })) :=
  C10_missing_product_lines_skipped dbSkipMissingOk true 4 "reason" skipMissingPurchase
    rfl rfl (by decide)
    ⟨⟨1, 1, 50, 50⟩, by decide, rfl⟩
    (by decide)
    (by
      intro it hit p hp
      simp only [skipMissingPurchase] at hit
      rw [List.mem_cons, List.mem_singleton] at hit
      rcases hit with h | h
      · subst h
        simp [dbSkipMissingOk, assocFind] at hp
      · subst h
        have h2 : assocFind dbSkipMissingOk.products 2 =
            some ⟨"B", 7, none, 6, .active⟩ := rfl
        have h3 := h2.symm.trans hp
        have h4 : (⟨"B", 7, none, 6, .active⟩ : Product) = p := by injection h3
        subst h4
        exact ⟨by decide, by decide⟩)

/-! ## Claim C8: purchase deactivate/reactivate round trip -/

/-- The saved purchase document passes its schema validation when every
request line has positive quantity and price. -/
theorem purchaseValid_map (items : List PurchaseReqItem) (pid : String) (prov : Nat)
    (t : Int) (h : ∀ it ∈ items, 0 < it.quantity ∧ 0 < it.purchase_price) :
    purchaseValid ⟨pid, prov, items.map toPurchaseItem, t, .active, none, none⟩ = true := by
  simp only [purchaseValid, List.all_eq_true]
  intro x hx
  rw [List.mem_map] at hx
  obtain ⟨it, hit, rfl⟩ := hx
  have h1 := h it hit
  simp only [toPurchaseItem, Bool.and_eq_true, decide_eq_true_eq]
  exact h1

/-- C8: create a purchase, deactivate it, reactivate it (non-empty
reasons, provider and all line products active with schema-valid stock
and price, no other operation in between): the creation answers 201 and
both transitions answer 200, and every product record after the
reactivation equals its record immediately after the creation — the
round trip restores every stock exactly, duplicate product lines
included.  (`hfreshid` says the display-id allocator found an unused id,
ruling out the 409 duplicate-id branch.) -/
theorem C8_deactivate_reactivate_roundtrip (db : DB) (nowMs : Nat) (provider : Nat)
    (prov : Provider) (items : List PurchaseReqItem) (reason1 reason2 : String)
    (hprov : assocFind db.providers provider = some prov)
    (hpact : prov.status = EntStatus.active)
    (hne : items ≠ [])
    (hitems : ∀ it ∈ items, (0 < it.quantity ∧ 0 < it.purchase_price) ∧
        ∃ p, assocFind db.products it.product = some p ∧ p.status = EntStatus.active ∧
          0 ≤ p.stock ∧ 0 ≤ p.price)
    (hfreshid : (db.purchases.map (fun p => p.2.id)).contains
        (generatePurchaseId (db.purchases.map (fun p => p.2.id)) nowMs) = false)
    (hrs1 : ¬ (jsTrim reason1 = "")) (hrs2 : ¬ (jsTrim reason2 = "")) :
    (postPurchase db nowMs true items provider).resp.status = 201 ∧
    (deactivatePurchase (postPurchase db nowMs true items provider).db true
        (freshKey db.purchases) reason1).resp.status = 200 ∧
    (reactivatePurchase (deactivatePurchase (postPurchase db nowMs true items provider).db
        true (freshKey db.purchases) reason1).db true
        (freshKey db.purchases) reason2).resp.status = 200 ∧
    (∀ q,
      assocFind ((reactivatePurchase (deactivatePurchase (postPurchase db nowMs true
          items provider).db true (freshKey db.purchases) reason1).db true
          (freshKey db.purchases) reason2).db.products) q
      = assocFind ((postPurchase db nowMs true items provider).db.products) q) := by
  have hgate : (!(jsTruthy (unawaited true))) = false := by simp [jsTruthy_unawaited]
  have hvd : validatePurchaseData items = [] :=
    validatePurchaseData_nil items hne (fun it hit => (hitems it hit).1)
  obtain ⟨ps1, hloop1, hrel1⟩ := purchaseItemsLoop_ok items db.products 0 [] 0
    (fun it hit => ⟨le_of_lt (hitems it hit).1.1, (hitems it hit).2⟩)
  rw [List.nil_append, Int.zero_add] at hloop1
  have hvalid : purchaseValid
      ⟨generatePurchaseId (db.purchases.map (fun p => p.2.id)) nowMs,
       provider, items.map toPurchaseItem, itemsTotal items, .active, none, none⟩ = true :=
    purchaseValid_map items _ provider _ (fun it hit => (hitems it hit).1)
  have hpost : postPurchase db nowMs true items provider =
      ⟨⟨201, "Purchase created successfully and product stock updated"⟩,
       { db with
          products := ps1
          purchases := db.purchases ++ [(freshKey db.purchases,
            ⟨generatePurchaseId (db.purchases.map (fun p => p.2.id)) nowMs,
             provider, items.map toPurchaseItem, itemsTotal items, .active,
             none, none⟩)] }⟩ := by
    simp only [postPurchase, hgate, Bool.false_eq_true, if_false, hvd, hprov,
      if_neg (by simp [hpact] : ¬ (prov.status ≠ EntStatus.active)), hloop1,
      hfreshid, hvalid, Bool.not_true]
    simp
  -- lookups into the post-creation store
  have hfind1 : ∀ q, assocFind ps1 q =
      (assocFind db.products q).map
        (fun p => { p with stock := p.stock + sumQtyReq items q }) := hrel1
  have hfindP1 : assocFind (db.purchases ++ [(freshKey db.purchases,
      (⟨generatePurchaseId (db.purchases.map (fun p => p.2.id)) nowMs,
       provider, items.map toPurchaseItem, itemsTotal items, .active,
       none, none⟩ : Purchase))]) (freshKey db.purchases) =
      some ⟨generatePurchaseId (db.purchases.map (fun p => p.2.id)) nowMs,
       provider, items.map toPurchaseItem, itemsTotal items, .active, none, none⟩ :=
    assocFind_append_right _ _ _ (assocFind_freshKey _)
  -- the deactivation pre-check passes
  have hcheck1 : deactivateCheck ps1 (items.map toPurchaseItem) = none := by
    apply deactivateCheck_none
    intro it hit p' hp'
    rw [List.mem_map] at hit
    obtain ⟨it0, hit0, rfl⟩ := hit
    obtain ⟨⟨hq0, hpr0⟩, p, hp, hact, hstock, hprice⟩ := hitems it0 hit0
    have hp2 : assocFind ps1 it0.product = some p' := hp'
    rw [hfind1, hp] at hp2
    simp only [Option.map_some'] at hp2
    have hp'' : p' = { p with stock := p.stock + sumQtyReq items it0.product } := by
      injection hp2 with h2
      exact h2.symm
    subst hp''
    have hle := mem_le_sumQtyReq items it0 hit0
      (fun x hx => le_of_lt (hitems x hx).1.1)
    show (toPurchaseItem it0).quantity ≤ p.stock + sumQtyReq items it0.product
    show it0.quantity ≤ p.stock + sumQtyReq items it0.product
    omega
  -- the decrement loop succeeds
  obtain ⟨ps2, hloop2, hrel2⟩ := deactivateDec_ok (items.map toPurchaseItem) ps1
    (by
      intro it hit
      rw [List.mem_map] at hit
      obtain ⟨it0, hit0, rfl⟩ := hit
      exact le_of_lt (hitems it0 hit0).1.1)
    (by
      intro it hit p' hp'
      rw [List.mem_map] at hit
      obtain ⟨it0, hit0, rfl⟩ := hit
      obtain ⟨⟨hq0, hpr0⟩, p, hp, hact, hstock, hprice⟩ := hitems it0 hit0
      have hp2 : assocFind ps1 it0.product = some p' := hp'
      rw [hfind1, hp] at hp2
      simp only [Option.map_some'] at hp2
      have hp'' : p' = { p with stock := p.stock + sumQtyReq items it0.product } := by
        injection hp2 with h2
        exact h2.symm
      subst hp''
      rw [show (toPurchaseItem it0).product = it0.product from rfl,
        sumQtyP_map_toPurchaseItem]
      constructor
      · show sumQtyReq items (toPurchaseItem it0).product ≤ p.stock + sumQtyReq items it0.product
        show sumQtyReq items it0.product ≤ p.stock + sumQtyReq items it0.product
        omega
      · show (0 : Int) ≤ p.price
        exact hprice)
  have hdeact : deactivatePurchase
      ({ db with
          products := ps1
          purchases := db.purchases ++ [(freshKey db.purchases,
            ⟨generatePurchaseId (db.purchases.map (fun p => p.2.id)) nowMs,
             provider, items.map toPurchaseItem, itemsTotal items, .active,
             none, none⟩)] } : DB) true (freshKey db.purchases) reason1 =
      ⟨⟨200, "Purchase deactivated successfully and stock reverted"⟩,
       { db with
          products := ps2
          purchases := assocSet (db.purchases ++ [(freshKey db.purchases,
            ⟨generatePurchaseId (db.purchases.map (fun p => p.2.id)) nowMs,
             provider, items.map toPurchaseItem, itemsTotal items, .active,
             none, none⟩)]) (freshKey db.purchases)
            ⟨generatePurchaseId (db.purchases.map (fun p => p.2.id)) nowMs,
             provider, items.map toPurchaseItem, itemsTotal items, .inactive,
             some (jsTrim reason1), none⟩ }⟩ := by
    simp only [deactivatePurchase, hgate, Bool.false_eq_true, if_false,
      if_neg hrs1, hfindP1, hcheck1, hloop2]
    rfl
  -- lookups into the post-deactivation store
  have hfindP2 : assocFind (assocSet (db.purchases ++ [(freshKey db.purchases,
      (⟨generatePurchaseId (db.purchases.map (fun p => p.2.id)) nowMs,
       provider, items.map toPurchaseItem, itemsTotal items, .active,
       none, none⟩ : Purchase))]) (freshKey db.purchases)
      ⟨generatePurchaseId (db.purchases.map (fun p => p.2.id)) nowMs,
       provider, items.map toPurchaseItem, itemsTotal items, .inactive,
       some (jsTrim reason1), none⟩) (freshKey db.purchases) =
      some ⟨generatePurchaseId (db.purchases.map (fun p => p.2.id)) nowMs,
       provider, items.map toPurchaseItem, itemsTotal items, .inactive,
       some (jsTrim reason1), none⟩ := by
    rw [assocFind_assocSet_self, hfindP1]
    rfl
  -- every line product still exists and is active after the decrement
  have hexist2 : ∀ it0 ∈ items, ∀ p, assocFind db.products it0.product = some p →
      assocFind ps2 it0.product =
        some { p with stock := (p.stock + sumQtyReq items it0.product -
          sumQtyP (items.map toPurchaseItem) it0.product) } := by
    intro it0 hit0 p hp
    rw [hrel2, hfind1, hp]
    rfl
  have hcheck2 : reactivateCheck ps2 (items.map toPurchaseItem) = none := by
    apply reactivateCheck_none
    intro it hit
    rw [List.mem_map] at hit
    obtain ⟨it0, hit0, rfl⟩ := hit
    obtain ⟨_, p, hp, hact, hstock, hprice⟩ := hitems it0 hit0
    refine ⟨_, hexist2 it0 hit0 p hp, hact⟩
  -- the increment loop succeeds
  obtain ⟨ps3, hloop3, hrel3⟩ := reactivateInc_ok (items.map toPurchaseItem) ps2
    (by
      intro it hit
      rw [List.mem_map] at hit
      obtain ⟨it0, hit0, rfl⟩ := hit
      exact le_of_lt (hitems it0 hit0).1.1)
    (by
      intro it hit p' hp'
      rw [List.mem_map] at hit
      obtain ⟨it0, hit0, rfl⟩ := hit
      obtain ⟨_, p, hp, hact, hstock, hprice⟩ := hitems it0 hit0
      have hp2 : assocFind ps2 it0.product = some p' := hp'
      rw [hexist2 it0 hit0 p hp] at hp2
      have hp'' : p' = { p with stock := (p.stock + sumQtyReq items it0.product -
          sumQtyP (items.map toPurchaseItem) it0.product) } := by
        injection hp2 with h2
        exact h2.symm
      subst hp''
      constructor
      · show (0 : Int) ≤ p.stock + sumQtyReq items it0.product -
          sumQtyP (items.map toPurchaseItem) it0.product
        rw [sumQtyP_map_toPurchaseItem]
        omega
      · show (0 : Int) ≤ p.price
        exact hprice)
  have hreact : reactivatePurchase
      ({ db with
          products := ps2
          purchases := assocSet (db.purchases ++ [(freshKey db.purchases,
            ⟨generatePurchaseId (db.purchases.map (fun p => p.2.id)) nowMs,
             provider, items.map toPurchaseItem, itemsTotal items, .active,
             none, none⟩)]) (freshKey db.purchases)
            ⟨generatePurchaseId (db.purchases.map (fun p => p.2.id)) nowMs,
             provider, items.map toPurchaseItem, itemsTotal items, .inactive,
             some (jsTrim reason1), none⟩ } : DB) true (freshKey db.purchases) reason2 =
      ⟨⟨200, "Purchase reactivated successfully and stock restored"⟩,
       { db with
          products := ps3
          purchases := assocSet (assocSet (db.purchases ++ [(freshKey db.purchases,
            ⟨generatePurchaseId (db.purchases.map (fun p => p.2.id)) nowMs,
             provider, items.map toPurchaseItem, itemsTotal items, .active,
             none, none⟩)]) (freshKey db.purchases)
            ⟨generatePurchaseId (db.purchases.map (fun p => p.2.id)) nowMs,
             provider, items.map toPurchaseItem, itemsTotal items, .inactive,
             some (jsTrim reason1), none⟩) (freshKey db.purchases)
            ⟨generatePurchaseId (db.purchases.map (fun p => p.2.id)) nowMs,
             provider, items.map toPurchaseItem, itemsTotal items, .active,
             some (jsTrim reason1), some (jsTrim reason2)⟩ }⟩ := by
    simp only [reactivatePurchase, hgate, Bool.false_eq_true, if_false,
      if_neg hrs2, hfindP2, hprov, hpact, hcheck2, hloop3]
    rfl
  refine ⟨by rw [hpost], ?_, ?_, ?_⟩
  · rw [hpost]
    dsimp only
    rw [hdeact]
  · rw [hpost]
    dsimp only
    rw [hdeact]
    dsimp only
    rw [hreact]
  · intro q
    rw [hpost]
    dsimp only
    rw [hdeact]
    dsimp only
    rw [hreact]
    dsimp only
    rw [hrel3 q, hrel2 q]
    cases hofq : assocFind ps1 q with
    | none => rfl
    | some r =>
      simp only [Option.map_some']
      congr 1
      apply Product_ext_stock
      show r.stock - sumQtyP (items.map toPurchaseItem) q
          + sumQtyP (items.map toPurchaseItem) q = r.stock
      omega

/-- C8 witness: in `dbRoundTrip` (product 1 at stock 2, product 2 at
stock 0) a purchase listing product 1 twice is created, deactivated and
reactivated; every product record ends where it was right after the
creation. -/
theorem C8_witness :
    (postPurchase dbRoundTrip tNowMs true
        [⟨1, 5, 50⟩, ⟨2, 3, 20⟩, ⟨1, 4, 50⟩] 9).resp.status = 201 ∧
    (deactivatePurchase (postPurchase dbRoundTrip tNowMs true
        [⟨1, 5, 50⟩, ⟨2, 3, 20⟩, ⟨1, 4, 50⟩] 9).db true
        (freshKey dbRoundTrip.purchases) "damaged").resp.status = 200 ∧
    (reactivatePurchase (deactivatePurchase (postPurchase dbRoundTrip tNowMs true
        [⟨1, 5, 50⟩, ⟨2, 3, 20⟩, ⟨1, 4, 50⟩] 9).db true
        (freshKey dbRoundTrip.purchases) "damaged").db true
        (freshKey dbRoundTrip.purchases) "restored").resp.status = 200 ∧
    (∀ q,
      assocFind ((reactivatePurchase (deactivatePurchase (postPurchase dbRoundTrip tNowMs
          true [⟨1, 5, 50⟩, ⟨2, 3, 20⟩, ⟨1, 4, 50⟩] 9).db true
          (freshKey dbRoundTrip.purchases) "damaged").db true
          (freshKey dbRoundTrip.purchases) "restored").db.products) q
      = assocFind ((postPurchase dbRoundTrip tNowMs true
          [⟨1, 5, 50⟩, ⟨2, 3, 20⟩, ⟨1, 4, 50⟩] 9).db.products) q) :=
  C8_deactivate_reactivate_roundtrip dbRoundTrip tNowMs 9 ⟨.active⟩
    [⟨1, 5, 50⟩, ⟨2, 3, 20⟩, ⟨1, 4, 50⟩] "damaged" "restored"
    rfl rfl (by decide)
    (by
      intro it hit
      rw [List.mem_cons, List.mem_cons, List.mem_singleton] at hit
      rcases hit with h | h | h <;> subst h
      · exact ⟨⟨by decide, by decide⟩, ⟨"A", 100, none, 2, .active⟩, rfl, rfl,
          by decide, by decide⟩
      · exact ⟨⟨by decide, by decide⟩, ⟨"B", 7, none, 0, .active⟩, rfl, rfl,
          by decide, by decide⟩
      · exact ⟨⟨by decide, by decide⟩, ⟨"A", 100, none, 2, .active⟩, rfl, rfl,
          by decide, by decide⟩)
    rfl (by decide) (by decide)

end Icesoft
